import Mathlib

/-!
# Isolate lifecycle core of the V8-on-JerryScript embedding layer

A shallow embedding of `deps/jerry/v8jerry/v8jerry_isolate.cpp` (class `JerryIsolate`):
the handle-scope stack, the eternal store, the global symbol table and the
error / try-catch channel, together with theorems about them.

Conventions of the embedding

* Pointers to heap-allocated wrappers are modelled by their address (a `Nat`); a wrapper
  whose contents are read (`JerryValue*`) carries the engine value it holds.
* A nullable pointer is an `Option`; `NULL` is `none`.
* `std::vector` / `std::deque` are lists; `push_back` appends at the end, `back()` is the
  last element.
* `assert` is modelled as in a build with assertions enabled: a failing assertion stops
  the operation with `Fault.assertion`.  Undefined behaviour of the C++ source
  (`back()` on an empty container, dereferencing `NULL`, `operator[]` out of range)
  is reported as a fault as well; nothing is proved about what happens after a fault.
* Calls that leave the isolate (`delete` of a wrapper, engine reference counting, the
  embedder's message callback) are recorded, in program order, in the ghost field
  `trace`.
-/

namespace V8Jerry

/-! ## Data model -/

/-- Address of a heap-allocated handle (`JerryHandle*`); the address is the identity. -/
abbrev JerryHandle := Nat

/-- An engine value reference (`jerry_value_t`, a 32-bit word owned by the engine). -/
abbrev jerry_value_t := Nat

/-- A `JerryValue*`: the wrapper at address `addr`, holding the engine value `m_value`. -/
structure JerryValue where
  addr : Nat
  m_value : jerry_value_t
deriving DecidableEq, Repr

/-- Method `JerryValue::value()`. -/
def JerryValue.value (v : JerryValue) : jerry_value_t := v.m_value

/-- Reasons for which an operation does not return normally. -/
inductive Fault where
  /-- An `assert (...)` failed. -/
  | assertion
  /-- The call `back()` on an empty container. -/
  | emptyBack
  /-- A `NULL` pointer was dereferenced. -/
  | nullDereference
  /-- The call `operator[]` with an index outside of the container. -/
  | outOfRange
  /-- The call `abort ()`. -/
  | abort
  /-- The statement `delete p` for a `p` that is neither `NULL` nor a wrapper. -/
  | invalidPointer
  /-- The step budget given to a loop of the source ran out before the loop ended. -/
  | outOfFuel
deriving DecidableEq, Repr

/-- Calls that leave the isolate, recorded in program order. -/
inductive Effect where
  /-- A handle-scope frame released the wrapper at this address. -/
  | deleteHandle (h : JerryHandle)
  /-- The statement `delete p` for a `JerryValue* p`. -/
  | deleteValue (v : JerryValue)
  /-- The engine call `jerry_acquire_value (v)`. -/
  | acquire (v : jerry_value_t)
  /-- The engine call `jerry_release_value (v)`. -/
  | release (v : jerry_value_t)
  /-- The engine call `jerry_create_symbol (name)`, which returned `symbol`. -/
  | createSymbol (name symbol : jerry_value_t)
  /-- The call `error.SetProperty (m_magic_string_stack, text)` of `UpdateErrorStackProp`. -/
  | setStackProperty (error : jerry_value_t) (text : String)
  /-- The embedder's message callback `cb` was invoked with an empty message and `error`. -/
  | messageCallback (cb : Nat) (error : jerry_value_t)
  /-- The engine call `jerry_call_function (func, undefined, NULL, 0)`. -/
  | callFunction (func : jerry_value_t)
  /-- The engine call `jerry_run_all_enqueued_jobs ()`. -/
  | runAllEnqueuedJobs
  /-- The engine call `jerry_set_realm (realm)`. -/
  | setRealm (realm : jerry_value_t)
  /-- The engine call `jerry_set_vm_exec_stop_callback`, with a callback (`true`) or with
  `NULL` (`false`). -/
  | setStopCallback (armed : Bool)
  /-- The statement `delete` for the function or object template at this address. -/
  | deleteTemplate (h : JerryHandle)
  /-- The message "Isolate::Dispose unsupported type" printed for the handle at this
  address. -/
  | unsupportedTemplate (h : JerryHandle)
  /-- The statement `delete` for the UTF-16 string object at this address. -/
  | deleteString (str : Nat)
  /-- The embedder's fatal error callback `cb` was invoked. -/
  | fatalErrorCallback (cb : Nat)
  /-- The engine call `jerry_cleanup ()`. -/
  | cleanup
  /-- The call `free (current_context_p)`. -/
  | freeContext
  /-- The statement `delete this` of `Dispose`. -/
  | deleteIsolate
deriving DecidableEq, Repr

/-- The enum `JerryHandleScopeType`. -/
inductive JerryHandleScopeType where
  | Normal
  | Escapable
  | Sealed
deriving DecidableEq, Repr

/-- Modelled from the spec: class `JerryHandleScope` (header `v8jerry_handlescope.hpp`) is
not among the sources.  A frame is an "ordered sequence of Value Wrapper owning-pointers
(insertion order = creation order); tag = {Normal, Escapable, Sealed}", and it records the
opaque scope token it was pushed with. -/
structure JerryHandleScope where
  m_type : JerryHandleScopeType
  m_v8handle_scope : Nat
  m_handles : List JerryHandle
deriving DecidableEq, Repr

namespace JerryHandleScope

/-- Modelled from the spec: constructor `JerryHandleScope (type, handle_scope)`; "entering a
scope pushes a new frame", which tracks nothing yet. -/
def create (type : JerryHandleScopeType) (handle_scope : Nat) : JerryHandleScope :=
  { m_type := type, m_v8handle_scope := handle_scope, m_handles := [] }

/-- Modelled from the spec: accessor `V8HandleScope ()`, "the top frame's recorded token". -/
def V8HandleScope (s : JerryHandleScope) : Nat := s.m_v8handle_scope

/-- Modelled from the spec: method `AddHandle`; it "appends `value` to the [...] frame's
tracked list", and "a Sealed scope rejects new handle additions" (a usage defect:
"assertion failure in debug builds"). -/
def AddHandle (jvalue : JerryHandle) (s : JerryHandleScope) : Except Fault JerryHandleScope :=
  if s.m_type = JerryHandleScopeType.Sealed then .error Fault.assertion
  else .ok { s with m_handles := s.m_handles ++ [jvalue] }

/-- Modelled from the spec: method `RemoveHandle`; it "removes `value` from the [...]
frame's list if present" and tells whether it was removed.  One entry is removed per call. -/
def RemoveHandle (jvalue : JerryHandle) (s : JerryHandleScope) : Bool × JerryHandleScope :=
  if jvalue ∈ s.m_handles then (true, { s with m_handles := s.m_handles.erase jvalue })
  else (false, s)

/-- Modelled from the spec: method `Seal`; it "marks the current frame read-only". -/
def Seal (s : JerryHandleScope) : JerryHandleScope :=
  { s with m_type := JerryHandleScopeType.Sealed }

/-- Modelled from the spec: the destructor; exiting a scope "releases every Value Wrapper
still in its list — each release drops exactly one engine reference".  The result is the
sequence of releases it performs. -/
def destroy (s : JerryHandleScope) : List Effect :=
  s.m_handles.map Effect.deleteHandle

end JerryHandleScope

/-- The enum `JerryHandle::Type`, declared in a header that is not among the sources: the
enumerators the sources name, and any other one. -/
inductive HandleType where
  | FunctionTemplate
  | ObjectTemplate
  | PersistentValue
  | Other (tag : Nat)
deriving DecidableEq, Repr

/-- A cell of the root slot table `m_slot` (a `void*`): a raw word (0 is `NULL`), or a
pointer to a wrapper. -/
inductive SlotCell where
  | raw (word : Nat)
  | value (v : JerryValue)
deriving DecidableEq, Repr

/-- Class `JerryPolyfill` (`v8jerry_utils.cpp`): a bootstrap helper owning the engine
function `m_method`. -/
structure JerryPolyfill where
  m_method : jerry_value_t
deriving DecidableEq, Repr

/-- The state of a `JerryIsolate`: the members used by the operations below, the engine
state they depend on, and the ghost `trace`. -/
structure JerryIsolate where
  m_terminated : Bool
  m_templates : List JerryHandle
  m_eternals : List JerryValue
  m_global_symbols : List (jerry_value_t × jerry_value_t)
  m_current_error : Option JerryValue
  m_last_try_catch : Option Nat
  m_contexts : List (JerryValue × jerry_value_t)
  m_handleScopes : List JerryHandleScope
  m_micro_tasks : List JerryValue
  m_messageCallback : Option Nat
  m_magic_string_stack : JerryValue
  m_fatalErrorCallback : Option Nat
  m_hidden_object_template : Option JerryHandle
  m_fn_map_set : JerryPolyfill
  m_fn_set_add : JerryPolyfill
  m_fn_object_assign : JerryPolyfill
  m_fn_conversion_failer : JerryPolyfill
  m_fn_get_own_prop : JerryPolyfill
  m_fn_get_own_names : JerryPolyfill
  m_fn_set_integrity : JerryPolyfill
  m_slot : List SlotCell
  /-- The map `m_utf16strs`: pairs of a buffer address and the string object owning it. -/
  m_utf16strs : List (Nat × Nat)
  /-- Whether the thread-local `s_currentIsolate` points to this isolate. -/
  s_currentIsolate : Bool
  /-- Engine state: the realm that is active. -/
  engine_realm : jerry_value_t
  /-- Heap state: the number of objects created with `new` so far; the next one gets the
  address `heap_allocated + 1`, so addresses are not `NULL` and not reused. -/
  heap_allocated : Nat
  /-- Engine state: the value the next `jerry_create_symbol` returns. -/
  engine_next_symbol : jerry_value_t
  /-- Ghost state: the calls that left the isolate so far. -/
  trace : List Effect
deriving DecidableEq, Repr

/-- The members as `InitializeJerryIsolate` leaves them (containers are default-constructed
empty, `m_last_try_catch = NULL`, `m_current_error = NULL`, and `m_magic_string_stack` wraps
the engine string "stack", here the engine value 1); no message callback is registered
yet.  The bootstrap helpers hold sample engine functions, and the slot table is still
without cells: `InitalizeSlots` fills it. -/
def JerryIsolate.initial : JerryIsolate :=
  { m_terminated := false
    m_templates := []
    m_eternals := []
    m_global_symbols := []
    m_current_error := none
    m_last_try_catch := none
    m_contexts := []
    m_handleScopes := []
    m_micro_tasks := []
    m_messageCallback := none
    m_magic_string_stack := { addr := 1, m_value := 1 }
    m_fatalErrorCallback := none
    m_hidden_object_template := none
    m_fn_map_set := { m_method := 101 }
    m_fn_set_add := { m_method := 103 }
    m_fn_object_assign := { m_method := 105 }
    m_fn_conversion_failer := { m_method := 107 }
    m_fn_get_own_prop := { m_method := 109 }
    m_fn_get_own_names := { m_method := 111 }
    m_fn_set_integrity := { m_method := 113 }
    m_slot := []
    m_utf16strs := []
    s_currentIsolate := true
    engine_realm := 3
    heap_allocated := 1
    engine_next_symbol := 2
    trace := [] }

/-! ## Handle scopes (`v8jerry_isolate.cpp`, lines 257-296) -/

/-- Method `JerryIsolate::PushHandleScope`. -/
def PushHandleScope (type : JerryHandleScopeType) (handle_scope : Nat) (iso : JerryIsolate) :
    JerryIsolate :=
  { iso with m_handleScopes := iso.m_handleScopes ++ [JerryHandleScope.create type handle_scope] }

/-- Method `JerryIsolate::PopHandleScope`. -/
def PopHandleScope (handle_scope : Nat) (iso : JerryIsolate) : Except Fault JerryIsolate :=
  match iso.m_handleScopes.getLast? with
  | none => .error Fault.emptyBack
  | some handleScope =>
    if handleScope.V8HandleScope = handle_scope then
      .ok { iso with
        m_handleScopes := iso.m_handleScopes.dropLast
        trace := iso.trace ++ handleScope.destroy }
    else .error Fault.assertion

/-- Method `JerryIsolate::CurrentHandleScope`. -/
def CurrentHandleScope (iso : JerryIsolate) : Except Fault JerryHandleScope :=
  match iso.m_handleScopes.getLast? with
  | none => .error Fault.emptyBack
  | some handleScope => .ok handleScope

/-- Method `JerryIsolate::AddToHandleScope`. -/
def AddToHandleScope (jvalue : JerryHandle) (iso : JerryIsolate) : Except Fault JerryIsolate :=
  match iso.m_handleScopes.getLast? with
  | none => .error Fault.emptyBack
  | some handleScope =>
    match handleScope.AddHandle jvalue with
    | .error e => .error e
    | .ok handleScope1 =>
      .ok { iso with m_handleScopes := iso.m_handleScopes.dropLast ++ [handleScope1] }

/-- Method `JerryIsolate::EscapeHandle`.  The reverse iterator `end` first designates the
innermost frame and, after `++end`, its parent. -/
def EscapeHandle (jvalue : JerryHandle) (iso : JerryIsolate) : Except Fault JerryIsolate :=
  if iso.m_handleScopes.length > 1 then
    match iso.m_handleScopes.reverse with
    | current :: parent :: rest =>
      let (was_removed, current1) := current.RemoveHandle jvalue
      if was_removed then
        match parent.AddHandle jvalue with
        | .error e => .error e
        | .ok parent1 =>
          .ok { iso with m_handleScopes := (current1 :: parent1 :: rest).reverse }
      else .ok { iso with m_handleScopes := (current1 :: parent :: rest).reverse }
    | _ => .error Fault.assertion
  else .error Fault.assertion

/-- Method `JerryIsolate::SealHandleScope`. -/
def SealHandleScope (handle_scope : Nat) (iso : JerryIsolate) : Except Fault JerryIsolate :=
  match iso.m_handleScopes.getLast? with
  | none => .error Fault.emptyBack
  | some handleScope =>
    if handleScope.V8HandleScope = handle_scope then
      .ok { iso with m_handleScopes := iso.m_handleScopes.dropLast ++ [handleScope.Seal] }
    else .error Fault.assertion

/-- Every handle tracked by some frame of the scope stack, outermost frame first. -/
def tracked (iso : JerryIsolate) : List JerryHandle :=
  iso.m_handleScopes.flatMap JerryHandleScope.m_handles

/-- The wrappers released by handle-scope frames so far, in order of release. -/
def releasedHandles : List Effect → List JerryHandle
  | [] => []
  | Effect.deleteHandle h :: rest => h :: releasedHandles rest
  | _ :: rest => releasedHandles rest

/-- A call of the handle-scope interface of the isolate. -/
inductive ScopeCall where
  | push (type : JerryHandleScopeType) (handle_scope : Nat)
  | add (jvalue : JerryHandle)
  | pop (handle_scope : Nat)
deriving DecidableEq, Repr

/-- Performs one call of the handle-scope interface. -/
def runCall : ScopeCall → JerryIsolate → Except Fault JerryIsolate
  | ScopeCall.push type handle_scope, iso => .ok (PushHandleScope type handle_scope iso)
  | ScopeCall.add jvalue, iso => AddToHandleScope jvalue iso
  | ScopeCall.pop handle_scope, iso => PopHandleScope handle_scope iso

/-- Performs a sequence of calls, stopping at the first fault. -/
def runCalls : List ScopeCall → JerryIsolate → Except Fault JerryIsolate
  | [], iso => .ok iso
  | c :: cs, iso =>
    match runCall c iso with
    | .error e => .error e
    | .ok iso1 => runCalls cs iso1

/-- A properly nested use of handle scopes, seen from inside one frame: nothing more, or
one handle added to this frame, or a whole child scope (entered with `type` and token
`handle_scope`, running `body`, and exited with the same token), each followed by
the rest. -/
inductive Nested where
  | done
  | add (jvalue : JerryHandle) (rest : Nested)
  | scope (type : JerryHandleScopeType) (handle_scope : Nat) (body rest : Nested)
deriving Repr

namespace Nested

/-- The sequence of calls a nested use performs. -/
def calls : Nested → List ScopeCall
  | done => []
  | add jvalue rest => ScopeCall.add jvalue :: rest.calls
  | scope type handle_scope body rest =>
    ScopeCall.push type handle_scope :: (body.calls ++ ScopeCall.pop handle_scope :: rest.calls)

end Nested

/-- Call sequences in which every `push` is closed by a later `pop` with the same token and
every `pop` closes such a `push`: built up, from the left, of single additions and of whole
scopes. -/
inductive Balanced : List ScopeCall → Prop where
  | nil : Balanced []
  | add (pre : List ScopeCall) (jvalue : JerryHandle) :
      Balanced pre → Balanced (pre ++ [ScopeCall.add jvalue])
  | scope (pre body : List ScopeCall) (type : JerryHandleScopeType) (handle_scope : Nat) :
      Balanced pre → Balanced body →
      Balanced (pre ++ ScopeCall.push type handle_scope :: (body ++ [ScopeCall.pop handle_scope]))

/-- Call sequences that leave scopes open: `OpenScopes tokens calls` holds when `calls` is
balanced except for one unclosed `push` per entry of `tokens` (the innermost scope
first), each carrying that token. -/
inductive OpenScopes : List Nat → List ScopeCall → Prop where
  | base (seg : List ScopeCall) : Balanced seg → OpenScopes [] seg
  | frame (tokens : List Nat) (pre seg : List ScopeCall) (type : JerryHandleScopeType)
      (handle_scope : Nat) :
      OpenScopes tokens pre → Balanced seg →
      OpenScopes (handle_scope :: tokens) (pre ++ ScopeCall.push type handle_scope :: seg)

/-- The conversion of a `size_t` to `int` (32 bits, two's complement), as performed by the
assignment `*index = m_eternals.size ()`. -/
def toInt32 (n : Nat) : Int :=
  if n % 2 ^ 32 < 2 ^ 31 then ((n % 2 ^ 32 : Nat) : Int) else ((n % 2 ^ 32 : Nat) : Int) - 2 ^ 32

/-- Method `JerryIsolate::SetEternal`; the in-out parameter `*index` is passed in and its
final value is returned.  In `m_eternals[*index]` the `int` is converted to `size_t`, so a
negative index is out of range like one that is too large. -/
def SetEternal (value : JerryValue) (index : Int) (iso : JerryIsolate) :
    Except Fault (Int × JerryIsolate) :=
  if index = -1 then
    .ok (toInt32 iso.m_eternals.length, { iso with m_eternals := iso.m_eternals ++ [value] })
  else if 0 ≤ index ∧ index.toNat < iso.m_eternals.length then
    .ok (index, { iso with m_eternals := iso.m_eternals.set index.toNat value })
  else .error Fault.outOfRange

/-- Method `JerryIsolate::IsEternal`. -/
def IsEternal (value : JerryValue) (iso : JerryIsolate) : Bool :=
  decide (value ∈ iso.m_eternals)

/-! ## The engine -/

/-- The engine entry points whose results the isolate inspects.  The engine is an external
collaborator; the operations are parameters of the embedding. -/
structure Engine where
  /-- The test `jerry_get_boolean_value (jerry_binary_operation (JERRY_BIN_OP_STRICT_EQUAL,
  a, b))`. -/
  strict_equal : jerry_value_t → jerry_value_t → Bool
  /-- The call `jerry_value_is_error`. -/
  value_is_error : jerry_value_t → Bool
  /-- The call `jerry_value_to_string`. -/
  value_to_string : jerry_value_t → jerry_value_t
  /-- The characters `jerry_string_to_char_buffer` copies out of a value; their number is
  `jerry_get_string_size`. -/
  string_chars : jerry_value_t → List Char
  /-- The call `jerry_get_property (object, name)`. -/
  get_property : jerry_value_t → jerry_value_t → jerry_value_t
  /-- The call `jerry_get_array_length`. -/
  get_array_length : jerry_value_t → Nat
  /-- The call `jerry_get_property_by_index (object, index)`. -/
  get_property_by_index : jerry_value_t → Nat → jerry_value_t
  /-- The call `jerry_create_string` on a zero-terminated text. -/
  create_string : String → jerry_value_t
  /-- The call `jerry_get_value_from_error (value, true)`. -/
  get_value_from_error : jerry_value_t → jerry_value_t
  /-- The result of `jerry_call_function (func, undefined, NULL, 0)`. -/
  call_function : jerry_value_t → jerry_value_t
  /-- The result of the `n`-th call (counted from 0) of `jerry_run_all_enqueued_jobs` during
  one drain of the job queue. -/
  run_all_enqueued_jobs : Nat → jerry_value_t
  /-- The call `jerry_value_is_undefined`. -/
  value_is_undefined : jerry_value_t → Bool
  /-- Whether a value is a realm object, which `jerry_set_realm` accepts. -/
  is_realm : jerry_value_t → Bool
  /-- The error value `jerry_set_realm` returns for a value that is not a realm. -/
  set_realm_error : jerry_value_t
  /-- The call `jerry_create_undefined ()`. -/
  create_undefined : jerry_value_t
  /-- The call `jerry_create_null ()`. -/
  create_null : jerry_value_t
  /-- The call `jerry_create_boolean`. -/
  create_boolean : Bool → jerry_value_t
  /-- The call `jerry_parse_function (name, arguments, body)`. -/
  parse_function : String → String → String → jerry_value_t
  /-- Whether the global object has the property "Error" (`InjectGlobalFunctions` needs
  it). -/
  global_has_error : Bool

/-- A small engine for examples: values are compared by identity, the value 0 is the only
error value, odd values are objects whose properties can be read (their "stack" is the
array 10 with the two frames 11 and 12) and reading a property of any other value yields
the error value.  Calling the function 7 throws (the call returns the error value), calling
any other function returns `undefined` (the value 2); the job queue reports one failed job
and is empty afterwards; the odd values are realms. -/
def Engine.sample : Engine :=
  { strict_equal := fun a b => a == b
    value_is_error := fun v => v == 0
    value_to_string := fun v => v
    string_chars := fun v => if v = 11 then ['f'] else if v = 12 then ['g'] else ['E']
    get_property := fun object _ => if object % 2 = 1 then 10 else 0
    get_array_length := fun v => if v = 10 then 2 else 0
    get_property_by_index := fun _ index => 11 + index
    create_string := fun _ => 20
    get_value_from_error := fun _ => 31
    call_function := fun func => if func = 7 then 0 else 2
    run_all_enqueued_jobs := fun n => if n = 0 then 0 else 2
    value_is_undefined := fun v => v == 2
    is_realm := fun v => v % 2 == 1
    set_realm_error := 0
    create_undefined := 2
    create_null := 4
    create_boolean := fun b => if b then 6 else 8
    parse_function := fun _ _ _ => 100
    global_has_error := true }

/-! ## Global symbols (`v8jerry_isolate.cpp`, lines 244-255) -/

/-- Method `JerryIsolate::GetGlobalSymbol`.  The result is the engine value held by the new
wrapper that the method returns.  A new symbol is the engine's next fresh symbol. -/
def GetGlobalSymbol (E : Engine) (name : JerryValue) (iso : JerryIsolate) :
    jerry_value_t × JerryIsolate :=
  let nameValue := name.value
  match iso.m_global_symbols.find? (fun it => E.strict_equal it.1 nameValue) with
  | some it => (it.2, { iso with trace := iso.trace ++ [Effect.acquire it.2] })
  | none =>
    let symbol := iso.engine_next_symbol
    (symbol,
      { iso with
        m_global_symbols := iso.m_global_symbols ++ [(nameValue, symbol)]
        engine_next_symbol := symbol + 1
        trace := iso.trace ++
          [Effect.createSymbol nameValue symbol, Effect.acquire nameValue,
            Effect.acquire symbol] })

/-- States the isolate can be in later: after further `GetGlobalSymbol` calls and after any
other activity, which leaves the global symbol table alone and never takes back a symbol
the engine has handed out. -/
inductive Later (E : Engine) : JerryIsolate → JerryIsolate → Prop where
  | now (s : JerryIsolate) : Later E s s
  | getGlobalSymbol {s t : JerryIsolate} (name : JerryValue) :
      Later E s t → Later E s (GetGlobalSymbol E name t).2
  | other {s t u : JerryIsolate} :
      Later E s t → u.m_global_symbols = t.m_global_symbols →
      t.engine_next_symbol ≤ u.engine_next_symbol → Later E s u

/-- The global symbol table is well formed: no name is strictly equal to an earlier name,
the symbols are pairwise different, and all of them were handed out by the engine. -/
def SymbolTableOk (E : Engine) (iso : JerryIsolate) : Prop :=
  iso.m_global_symbols.Pairwise (fun p q => E.strict_equal p.1 q.1 = false)
  ∧ (iso.m_global_symbols.map Prod.snd).Nodup
  ∧ ∀ p ∈ iso.m_global_symbols, p.2 < iso.engine_next_symbol

/-- The table associates `symbol` with `name`: some entry holds `symbol` under this very
name or under a name strictly equal to it. -/
def Associated (E : Engine) (iso : JerryIsolate) (name symbol : jerry_value_t) : Prop :=
  ∃ p ∈ iso.m_global_symbols, p.2 = symbol ∧ (p.1 = name ∨ E.strict_equal p.1 name = true)

/-! ## Error channel (`v8jerry_isolate.cpp`, lines 174-225, 305-309, 406-456) -/

/-- Method `JerryIsolate::PushTryCatch`. -/
def PushTryCatch (try_catch_obj : Option Nat) (iso : JerryIsolate) : Option Nat × JerryIsolate :=
  (iso.m_last_try_catch, { iso with m_last_try_catch := try_catch_obj })

/-- Method `JerryIsolate::PopTryCatch`. -/
def PopTryCatch (try_catch_obj : Option Nat) (iso : JerryIsolate) : JerryIsolate :=
  { iso with m_last_try_catch := try_catch_obj }

/-- Method `JerryIsolate::ClearError`. -/
def ClearError (exception : Option JerryValue) (iso : JerryIsolate) : JerryIsolate :=
  match iso.m_current_error with
  | some current =>
    { iso with m_current_error := exception, trace := iso.trace ++ [Effect.deleteValue current] }
  | none => { iso with m_current_error := exception }

/-- Method `JerryIsolate::TakeError`. -/
def TakeError (iso : JerryIsolate) : Option JerryValue × JerryIsolate :=
  (iso.m_current_error, { iso with m_current_error := none })

/-- Method `JerryIsolate::HasError`. -/
def HasError (iso : JerryIsolate) : Bool :=
  iso.m_current_error.isSome

/-- Modelled from the spec: accessor `GetRawError ()` is declared in the header
`v8jerry_isolate.hpp`, which is not among the sources; it yields the "current error" Value
Wrapper of the Error Channel (possibly `NULL`). -/
def GetRawError (iso : JerryIsolate) : Option JerryValue :=
  iso.m_current_error

/-- Method `JerryIsolate::ReportMessage`; the message passed by `TryReportError` is an empty
handle. -/
def ReportMessage (error : jerry_value_t) (iso : JerryIsolate) : JerryIsolate :=
  match iso.m_messageCallback with
  | some cb => { iso with trace := iso.trace ++ [Effect.messageCallback cb error] }
  | none => iso

/-- The text `out << (const char*) &msg[0]` writes for a buffer holding `chars` followed by
a terminating zero: the characters up to the first zero. -/
def cString (chars : List Char) : String :=
  String.mk (chars.takeWhile (fun c => c ≠ Char.ofNat 0))

/-- The loop of `FormatError` over the entries `idx, idx + 1, ...` of the stack trace
(`count` entries are left): the text written and the engine references released. -/
def formatFrames (E : Engine) (stack_trace : jerry_value_t) : Nat → Nat → String × List Effect
  | _, 0 => ("", [])
  | idx, count + 1 =>
    let property := E.get_property_by_index stack_trace idx
    let line := "# " ++ toString idx ++ ": " ++ cString (E.string_chars property) ++ "\n"
    let (text, effects) := formatFrames E stack_trace (idx + 1) count
    (line ++ text, Effect.release property :: effects)

/-- Method `JerryIsolate::FormatError`: the text written to `out` and the engine references
released.  The buffer has room for the whole string, so `copied == msg_size` holds; the
second assertion fails when reading the "stack" property yields an error value. -/
def FormatError (E : Engine) (m_magic_string_stack : JerryValue) (error : jerry_value_t) :
    Except Fault (String × List Effect) :=
  let errorStr := E.value_to_string error
  let message := cString (E.string_chars errorStr) ++ "\n"
  let stack_trace := E.get_property error m_magic_string_stack.value
  if E.value_is_error stack_trace then .error Fault.assertion
  else
    let (text, effects) := formatFrames E stack_trace 0 (E.get_array_length stack_trace)
    .ok (message ++ text,
      Effect.release errorStr :: (effects ++ [Effect.release stack_trace]))

/-- Method `JerryIsolate::UpdateErrorStackProp`; the local wrapper `newMessage` releases the
string it holds when it goes out of scope. -/
def UpdateErrorStackProp (E : Engine) (error : jerry_value_t) (iso : JerryIsolate) :
    Except Fault JerryIsolate :=
  match FormatError E iso.m_magic_string_stack error with
  | .error e => .error e
  | .ok (errorMessage, effects) =>
    .ok { iso with
      trace := iso.trace ++ effects ++
        [Effect.setStackProperty error errorMessage,
          Effect.release (E.create_string errorMessage)] }

/-- Method `JerryIsolate::TryReportError`.  The local wrapper `error` holds its own
reference to the error value and releases it when the method returns. -/
def TryReportError (E : Engine) (iso : JerryIsolate) : Except Fault JerryIsolate :=
  if iso.m_last_try_catch ≠ none then .ok iso
  else
    match GetRawError iso with
    | none => .error Fault.nullDereference
    | some raw =>
      let error := raw.value
      let iso1 := { iso with trace := iso.trace ++ [Effect.acquire error] }
      let iso2 := ClearError none iso1
      match UpdateErrorStackProp E error iso2 with
      | .error e => .error e
      | .ok iso3 =>
        let iso4 := ReportMessage error iso3
        .ok { iso4 with trace := iso4.trace ++ [Effect.release error] }

/-- The invocations of the message callback recorded in a trace: the callback and the error
value it received, in order. -/
def callbacks : List Effect → List (Nat × jerry_value_t)
  | [] => []
  | Effect.messageCallback cb error :: rest => (cb, error) :: callbacks rest
  | _ :: rest => callbacks rest

/-- The wrappers disposed with `delete` recorded in a trace, in order. -/
def deletedValues : List Effect → List JerryValue
  | [] => []
  | Effect.deleteValue v :: rest => v :: deletedValues rest
  | _ :: rest => deletedValues rest

/-! ## Setting the current error (`v8jerry_isolate.cpp`, lines 184-189) -/

/-- The expression `new JerryValue (value)`: the wrapper gets the next free address. -/
def newJerryValue (value : jerry_value_t) (iso : JerryIsolate) : JerryValue × JerryIsolate :=
  ({ addr := iso.heap_allocated + 1, m_value := value },
    { iso with heap_allocated := iso.heap_allocated + 1 })

/-- Method `JerryIsolate::SetError`. -/
def SetError (E : Engine) (error_value : jerry_value_t) (iso : JerryIsolate) :
    Except Fault JerryIsolate :=
  if E.value_is_error error_value then
    let error_obj := E.get_value_from_error error_value
    let (wrapper, iso1) := newJerryValue error_obj iso
    .ok (ClearError (some wrapper) iso1)
  else .error Fault.assertion

/-- Whether the wrapper at an address was disposed with `delete` according to a trace. -/
def disposed (addr : Nat) (trace : List Effect) : Prop :=
  addr ∈ (deletedValues trace).map JerryValue.addr

/-- The current-error slot holds no wrapper that was already disposed. -/
def SlotLive (iso : JerryIsolate) : Prop :=
  ∀ w : JerryValue, iso.m_current_error = some w → ¬ disposed w.addr iso.trace

/-! ## Context stack (`v8jerry_isolate.cpp`, lines 227-242) -/

/-- The engine call `jerry_set_realm (realm_value)`: for a realm, it activates the realm and
returns the realm that was active before; for any other value it returns an error value and
activates nothing. -/
def jerry_set_realm (E : Engine) (realm_value : jerry_value_t) (iso : JerryIsolate) :
    jerry_value_t × JerryIsolate :=
  if E.is_realm realm_value then
    (iso.engine_realm,
      { iso with
        engine_realm := realm_value, trace := iso.trace ++ [Effect.setRealm realm_value] })
  else (E.set_realm_error, { iso with trace := iso.trace ++ [Effect.setRealm realm_value] })

/-- Method `JerryIsolate::PushContext`. -/
def PushContext (E : Engine) (context : JerryValue) (iso : JerryIsolate) : JerryIsolate :=
  let (old_realm, iso1) := jerry_set_realm E context.value iso
  { iso1 with m_contexts := iso1.m_contexts ++ [(context, old_realm)], s_currentIsolate := true }

/-- Method `JerryIsolate::PopContext`. -/
def PopContext (E : Engine) (iso : JerryIsolate) : Except Fault JerryIsolate :=
  match iso.m_contexts.getLast? with
  | none => .error Fault.emptyBack
  | some back =>
    let (_, iso1) := jerry_set_realm E back.2 iso
    .ok { iso1 with m_contexts := iso1.m_contexts.dropLast }

/-- Method `JerryIsolate::CurrentContext`. -/
def CurrentContext (iso : JerryIsolate) : Except Fault JerryValue :=
  match iso.m_contexts.getLast? with
  | none => .error Fault.emptyBack
  | some back => .ok back.1

/-- A call of the context interface of the isolate. -/
inductive ContextCall where
  | push (context : JerryValue)
  | pop
deriving DecidableEq, Repr

/-- Performs a sequence of `PushContext` and `PopContext` calls, stopping at the first
fault. -/
def runContextCalls (E : Engine) : List ContextCall → JerryIsolate → Except Fault JerryIsolate
  | [], iso => .ok iso
  | ContextCall.push context :: cs, iso => runContextCalls E cs (PushContext E context iso)
  | ContextCall.pop :: cs, iso =>
    match PopContext E iso with
    | .error e => .error e
    | .ok iso1 => runContextCalls E cs iso1

/-- The number of `PushContext` calls in a sequence. -/
def pushCount : List ContextCall → Nat
  | [] => 0
  | ContextCall.push _ :: cs => pushCount cs + 1
  | ContextCall.pop :: cs => pushCount cs

/-- The number of `PopContext` calls in a sequence. -/
def popCount : List ContextCall → Nat
  | [] => 0
  | ContextCall.push _ :: cs => popCount cs
  | ContextCall.pop :: cs => popCount cs + 1

/-! ## Template registry (`v8jerry_isolate.cpp`, lines 298-303) -/

/-- Method `JerryIsolate::AddTemplate`. -/
def AddTemplate (handle : JerryHandle) (iso : JerryIsolate) : JerryIsolate :=
  if handle ∈ iso.m_templates then iso
  else { iso with m_templates := iso.m_templates ++ [handle] }

/-! ## Microtask queue (`v8jerry_isolate.cpp`, lines 353-375) -/

/-- Modelled from the spec: method `JerryValue::Copy` (header `v8jerry_value.hpp`) is not
among the sources; `EnqueueMicrotask` "duplicates the caller's handle (the queue takes its
own owning copy)": a new wrapper with its own reference to the same engine value. -/
def JerryValue.Copy (v : JerryValue) (iso : JerryIsolate) : JerryValue × JerryIsolate :=
  let (copy, iso1) := newJerryValue v.value iso
  (copy, { iso1 with trace := iso1.trace ++ [Effect.acquire v.value] })

/-- Method `JerryIsolate::EnqueueMicrotask`. -/
def EnqueueMicrotask (func : JerryValue) (iso : JerryIsolate) : JerryIsolate :=
  let (copy, iso1) := func.Copy iso
  { iso1 with m_micro_tasks := iso1.m_micro_tasks ++ [copy] }

/-- Performs `EnqueueMicrotask` for each of the callables, in order. -/
def enqueueAll : List JerryValue → JerryIsolate → JerryIsolate
  | [], iso => iso
  | func :: rest, iso => enqueueAll rest (EnqueueMicrotask func iso)

/-- The first loop of `RunMicrotasks` over the queued tasks: each task is called, the
result of the call is released, and the task is deleted. -/
def runTasks (E : Engine) : List JerryValue → List Effect
  | [] => []
  | task :: rest =>
    Effect.callFunction task.value :: Effect.release (E.call_function task.value) ::
      Effect.deleteValue task :: runTasks E rest

/-- The second loop of `RunMicrotasks`, `while (true)`, from the `n`-th call of
`jerry_run_all_enqueued_jobs` on, with a budget of `fuel` iterations: `none` when the
budget runs out before the engine returns `undefined`. -/
def drainJobs (E : Engine) : Nat → Nat → Option (List Effect)
  | 0, _ => none
  | fuel + 1, n =>
    let ret := E.run_all_enqueued_jobs n
    if E.value_is_undefined ret then some [Effect.runAllEnqueuedJobs, Effect.release ret]
    else
      match drainJobs E fuel (n + 1) with
      | none => none
      | some effects => some (Effect.runAllEnqueuedJobs :: Effect.release ret :: effects)

/-- Method `JerryIsolate::RunMicrotasks`, with a budget of `fuel` iterations for its second
loop.  The calls are taken not to re-enter the isolate. -/
def RunMicrotasks (E : Engine) (fuel : Nat) (iso : JerryIsolate) : Except Fault JerryIsolate :=
  let iso1 :=
    { iso with m_micro_tasks := [], trace := iso.trace ++ runTasks E iso.m_micro_tasks }
  match drainJobs E fuel 0 with
  | none => .error Fault.outOfFuel
  | some effects => .ok { iso1 with trace := iso1.trace ++ effects }

/-- The functions called with `jerry_call_function` recorded in a trace, in order. -/
def calledFunctions : List Effect → List jerry_value_t
  | [] => []
  | Effect.callFunction func :: rest => func :: calledFunctions rest
  | _ :: rest => calledFunctions rest

/-! ## Root slot table (`v8jerry_isolate.cpp`, lines 324-351) -/

/-- The constants of `v8::internal` (and the number of cells of `m_slot`) that the sources
use; their declarations are not among the sources, so they are parameters. -/
structure Internals where
  kApiSystemPointerSize : Nat
  kIsolateRootsOffset : Nat
  kExternalMemoryOffset : Nat
  kExternalMemoryLimitOffset : Nat
  kUndefinedValueRootIndex : Nat
  kTheHoleValueRootIndex : Nat
  kNullValueRootIndex : Nat
  kTrueValueRootIndex : Nat
  kFalseValueRootIndex : Nat
  kEmptyStringRootIndex : Nat
  /-- The number of cells, `sizeof (m_slot) / sizeof (m_slot[0])`. -/
  slotCount : Nat
deriving DecidableEq, Repr

/-- A layout for examples: 8-byte pointers, the roots start at cell 7. -/
def Internals.sample : Internals :=
  { kApiSystemPointerSize := 8
    kIsolateRootsOffset := 56
    kExternalMemoryOffset := 32
    kExternalMemoryLimitOffset := 40
    kUndefinedValueRootIndex := 4
    kTheHoleValueRootIndex := 5
    kNullValueRootIndex := 6
    kTrueValueRootIndex := 7
    kFalseValueRootIndex := 8
    kEmptyStringRootIndex := 9
    slotCount := 24 }

/-- The value `root_offset` computed by `InitalizeSlots` and `Dispose`. -/
def Internals.root_offset (K : Internals) : Nat :=
  K.kIsolateRootsOffset / K.kApiSystemPointerSize

/-- The assignment `m_slot[index] = cell`. -/
def writeSlot (index : Nat) (cell : SlotCell) (slots : List SlotCell) :
    Except Fault (List SlotCell) :=
  if index < slots.length then .ok (slots.set index cell) else .error Fault.outOfRange

/-- Method `JerryIsolate::InitalizeSlots`.  The six wrappers are created in the order of the
assignments. -/
def InitalizeSlots (E : Engine) (K : Internals) (iso : JerryIsolate) :
    Except Fault JerryIsolate := do
  let root_offset := K.root_offset
  let h := iso.heap_allocated
  let slot0 := List.replicate K.slotCount (SlotCell.raw 0)
  let slot1 ← writeSlot (K.kExternalMemoryOffset / K.kApiSystemPointerSize) (SlotCell.raw 0) slot0
  let slot2 ← writeSlot (K.kExternalMemoryLimitOffset / K.kApiSystemPointerSize)
    (SlotCell.raw (1024 * 1024)) slot1
  let slot3 ← writeSlot (root_offset + K.kUndefinedValueRootIndex)
    (SlotCell.value { addr := h + 1, m_value := E.create_undefined }) slot2
  let slot4 ← writeSlot (root_offset + K.kTheHoleValueRootIndex)
    (SlotCell.value { addr := h + 2, m_value := E.create_undefined }) slot3
  let slot5 ← writeSlot (root_offset + K.kNullValueRootIndex)
    (SlotCell.value { addr := h + 3, m_value := E.create_null }) slot4
  let slot6 ← writeSlot (root_offset + K.kTrueValueRootIndex)
    (SlotCell.value { addr := h + 4, m_value := E.create_boolean true }) slot5
  let slot7 ← writeSlot (root_offset + K.kFalseValueRootIndex)
    (SlotCell.value { addr := h + 5, m_value := E.create_boolean false }) slot6
  let slot8 ← writeSlot (root_offset + K.kEmptyStringRootIndex)
    (SlotCell.value { addr := h + 6, m_value := E.create_string "" }) slot7
  if K.slotCount > root_offset + K.kEmptyStringRootIndex then
    .ok { iso with m_slot := slot8, heap_allocated := h + 6 }
  else .error Fault.assertion

/-! ## Further operations of the isolate -/

/-- Method `JerryIsolate::Enter`. -/
def Enter (iso : JerryIsolate) : JerryIsolate := iso

/-- Method `JerryIsolate::Exit`. -/
def Exit (iso : JerryIsolate) : JerryIsolate :=
  if iso.m_contexts.length = 0 then iso else iso

/-- Method `JerryIsolate::Terminate`. -/
def Terminate (iso : JerryIsolate) : JerryIsolate :=
  { iso with m_terminated := true, trace := iso.trace ++ [Effect.setStopCallback true] }

/-- Method `JerryIsolate::CancelTerminate`. -/
def CancelTerminate (iso : JerryIsolate) : JerryIsolate :=
  { iso with m_terminated := false, trace := iso.trace ++ [Effect.setStopCallback false] }

/-- Method `JerryIsolate::HiddenObjectTemplate`; the result is the address of the
template. -/
def HiddenObjectTemplate (iso : JerryIsolate) : JerryHandle × JerryIsolate :=
  match iso.m_hidden_object_template with
  | some template => (template, iso)
  | none =>
    (iso.heap_allocated + 1,
      { iso with
        m_hidden_object_template := some (iso.heap_allocated + 1)
        heap_allocated := iso.heap_allocated + 1 })

/-- Method `JerryIsolate::AddUTF16String` for the string object at `str` whose characters
are at `buffer`. -/
def AddUTF16String (str buffer : Nat) (iso : JerryIsolate) : Except Fault JerryIsolate :=
  if (iso.m_utf16strs.find? (fun entry => entry.1 == buffer)).isNone then
    .ok { iso with m_utf16strs := iso.m_utf16strs ++ [(buffer, str)] }
  else .error Fault.assertion

/-- Method `JerryIsolate::RemoveUTF16String`. -/
def RemoveUTF16String (buffer : Nat) (iso : JerryIsolate) : Except Fault JerryIsolate :=
  match iso.m_utf16strs.find? (fun entry => entry.1 == buffer) with
  | none => .error Fault.assertion
  | some iter =>
    .ok { iso with
      m_utf16strs := iso.m_utf16strs.filter (fun entry => entry.1 != buffer)
      trace := iso.trace ++ [Effect.deleteString iter.2] }

/-- Method `JerryIsolate::ReportFatalError`. -/
def ReportFatalError (iso : JerryIsolate) : Except Fault JerryIsolate :=
  match iso.m_fatalErrorCallback with
  | some cb => .ok { iso with trace := iso.trace ++ [Effect.fatalErrorCallback cb] }
  | none => .error Fault.abort

/-! ## Disposal (`v8jerry_isolate.cpp`, lines 106-172) -/

/-- The first loop of `Dispose`, over the templates from the last registered to the first;
`typeOf` gives the result of `jhandle->type ()`. -/
def disposeTemplates (typeOf : JerryHandle → HandleType) : List JerryHandle → List Effect
  | [] => []
  | jhandle :: rest =>
    (match typeOf jhandle with
      | HandleType.FunctionTemplate => Effect.deleteTemplate jhandle
      | HandleType.ObjectTemplate => Effect.deleteTemplate jhandle
      | _ => Effect.unsupportedTemplate jhandle) :: disposeTemplates typeOf rest

/-- The loop of `Dispose` over the global symbols. -/
def disposeSymbols : List (jerry_value_t × jerry_value_t) → List Effect
  | [] => []
  | it :: rest => Effect.release it.1 :: Effect.release it.2 :: disposeSymbols rest

/-- The statement `delete reinterpret_cast<JerryValue*> (m_slot[index])`. -/
def deleteSlot (slots : List SlotCell) (index : Nat) : Except Fault (List Effect) :=
  match slots[index]? with
  | none => .error Fault.outOfRange
  | some (SlotCell.value v) => .ok [Effect.deleteValue v]
  | some (SlotCell.raw word) => if word = 0 then .ok [] else .error Fault.invalidPointer

/-- The destructor of `JerryPolyfill`. -/
def JerryPolyfill.destroy (helper : JerryPolyfill) : Effect :=
  Effect.release helper.m_method

/-- Method `JerryIsolate::Dispose`.  The isolate does not exist afterwards; the result is the
trace up to and including `delete this`. -/
def Dispose (typeOf : JerryHandle → HandleType) (K : Internals) (iso : JerryIsolate) :
    Except Fault (List Effect) := do
  let templates := disposeTemplates typeOf iso.m_templates.reverse
  let eternals := iso.m_eternals.map Effect.deleteValue
  let symbols := disposeSymbols iso.m_global_symbols
  let iso1 :=
    { iso with
      trace := iso.trace ++ templates ++ eternals ++ symbols ++
        [Effect.deleteValue iso.m_magic_string_stack] }
  let iso2 := ClearError none iso1
  let helpers :=
    [iso.m_fn_set_add.destroy, iso.m_fn_map_set.destroy, iso.m_fn_object_assign.destroy,
      iso.m_fn_conversion_failer.destroy, iso.m_fn_get_own_prop.destroy,
      iso.m_fn_get_own_names.destroy, iso.m_fn_set_integrity.destroy]
  let root_offset := K.root_offset
  let undefined ← deleteSlot iso.m_slot (root_offset + K.kUndefinedValueRootIndex)
  let hole ← deleteSlot iso.m_slot (root_offset + K.kTheHoleValueRootIndex)
  let null ← deleteSlot iso.m_slot (root_offset + K.kNullValueRootIndex)
  let true_ ← deleteSlot iso.m_slot (root_offset + K.kTrueValueRootIndex)
  let false_ ← deleteSlot iso.m_slot (root_offset + K.kFalseValueRootIndex)
  let empty ← deleteSlot iso.m_slot (root_offset + K.kEmptyStringRootIndex)
  let hidden :=
    match iso.m_hidden_object_template with
    | some template => [Effect.deleteTemplate template]
    | none => []
  .ok (iso2.trace ++ helpers ++ undefined ++ hole ++ null ++ true_ ++ false_ ++ empty ++
    hidden ++ [Effect.cleanup, Effect.freeContext, Effect.deleteIsolate])

/-! ## Construction (`v8jerry_isolate.cpp`, lines 43-79; `v8jerry_utils.cpp`, lines 13-38) -/

/-- Method `JerryPolyfill::BuildMethod`. -/
def JerryPolyfill.BuildMethod (E : Engine) (name fn_args fn_body : String) :
    Except Fault jerry_value_t :=
  let method := E.parse_function name fn_args fn_body
  if E.value_is_error method then .error Fault.abort else .ok method

/-- The constructor of `JerryPolyfill`. -/
def JerryPolyfill.create (E : Engine) (name fn_args fn_body : String) :
    Except Fault JerryPolyfill :=
  match JerryPolyfill.BuildMethod E name fn_args fn_body with
  | .error e => .error e
  | .ok method => .ok { m_method := method }

/-- Function `InjectGlobalFunctions` (`v8jerry_utils.cpp`): it registers functions in objects
of the engine and changes no member of the isolate; it aborts when the global object has
no property "Error". -/
def InjectGlobalFunctions (E : Engine) : Except Fault Unit :=
  if E.global_has_error then .ok () else .error Fault.abort

/-- Method `JerryIsolate::InitializeJerryIsolate`, applied to the newly allocated object
`iso`, whose containers are empty. -/
def InitializeJerryIsolate (E : Engine) (K : Internals) (iso : JerryIsolate) :
    Except Fault JerryIsolate := do
  let map_set ← JerryPolyfill.create E "map_set" "map, key, value" "return map.set(key, value);"
  let set_add ← JerryPolyfill.create E "set_add" "set, value" "return map.add(key);"
  let object_assign ← JerryPolyfill.create E "object_assign" "value"
    "return Object.assign(Array.isArray(value) ? [] : \x7b\x7d, value);"
  let conversion_failer ← JerryPolyfill.create E "conv_fail" ""
    "this.toString = this.valueOf = function() \x7b throw new TypeError('Invalid usage'); \x7d"
  let get_own_prop ← JerryPolyfill.create E "get_own_prop" "key"
    "return Object.getOwnPropertyDescriptor(this, key);"
  let get_own_names ← JerryPolyfill.create E "get_own_names" ""
    "return Object.getOwnPropertyNames(this);"
  let set_integrity ← JerryPolyfill.create E "set_integrity" "prop" "Object[prop](this)"
  let iso1 ← InitalizeSlots E K
    { iso with
      m_terminated := false
      m_fatalErrorCallback := none
      m_fn_map_set := map_set
      m_fn_set_add := set_add
      m_fn_object_assign := object_assign
      m_fn_conversion_failer := conversion_failer
      m_fn_get_own_prop := get_own_prop
      m_fn_get_own_names := get_own_names
      m_fn_set_integrity := set_integrity }
  let (stack, iso2) := newJerryValue (E.create_string "stack") iso1
  InjectGlobalFunctions E
  .ok { iso2 with
    m_magic_string_stack := stack
    m_last_try_catch := none
    m_current_error := none
    m_hidden_object_template := none
    s_currentIsolate := true }

/-! ## Fatal errors of the port (`jerryscript-port-default.c`, lines 300-313) -/

/-- How the process ends. -/
inductive ProcessEnd where
  /-- The call `abort ()`. -/
  | abort
  /-- The call `exit (status)`. -/
  | exit (status : Nat)
deriving DecidableEq, Repr

/-- Function `jerry_port_fatal`.  The enumerator `ERR_OUT_OF_MEMORY` of `jerry_fatal_code_t`
is declared in a header that is not among the sources and is a parameter. -/
def jerry_port_fatal (ERR_OUT_OF_MEMORY : Nat) (code : Nat) : ProcessEnd :=
  if code ≠ 0 ∧ code ≠ ERR_OUT_OF_MEMORY then ProcessEnd.abort else ProcessEnd.exit code

/-- The behaviour the comment above `jerry_port_fatal` documents: "Calls 'abort' if exit code
is non-zero, 'exit' otherwise." -/
def jerry_port_fatal_documented (code : Nat) : ProcessEnd :=
  if code ≠ 0 then ProcessEnd.abort else ProcessEnd.exit code

/-- Sequences of context calls in which every `PushContext` (of a realm) is closed by a
`PopContext` and every `PopContext` closes a `PushContext`. -/
inductive BalancedContexts (E : Engine) : List ContextCall → Prop where
  | nil : BalancedContexts E []
  | scope (context : JerryValue) (inner rest : List ContextCall) :
      E.is_realm context.value = true → BalancedContexts E inner → BalancedContexts E rest →
      BalancedContexts E (ContextCall.push context :: (inner ++ ContextCall.pop :: rest))

/-- The layout constants are usable: the six root indices are pairwise different and every
cell that `InitalizeSlots` assigns lies inside `m_slot`. -/
def Internals.WellFormed (K : Internals) : Prop :=
  [K.kUndefinedValueRootIndex, K.kTheHoleValueRootIndex, K.kNullValueRootIndex,
    K.kTrueValueRootIndex, K.kFalseValueRootIndex, K.kEmptyStringRootIndex].Nodup
  ∧ K.kExternalMemoryOffset / K.kApiSystemPointerSize < K.slotCount
  ∧ K.kExternalMemoryLimitOffset / K.kApiSystemPointerSize < K.slotCount
  ∧ K.root_offset + K.kUndefinedValueRootIndex < K.slotCount
  ∧ K.root_offset + K.kTheHoleValueRootIndex < K.slotCount
  ∧ K.root_offset + K.kNullValueRootIndex < K.slotCount
  ∧ K.root_offset + K.kTrueValueRootIndex < K.slotCount
  ∧ K.root_offset + K.kFalseValueRootIndex < K.slotCount
  ∧ K.root_offset + K.kEmptyStringRootIndex < K.slotCount

/-! ## The operations of a live isolate -/

/-- A call of a method of `JerryIsolate` that can change the isolate, other than its
construction and `Dispose`. -/
inductive Operation where
  | enter
  | exit
  | terminate
  | cancelTerminate
  | pushTryCatch (try_catch_obj : Option Nat)
  | popTryCatch (try_catch_obj : Option Nat)
  | setError (error_value : jerry_value_t)
  | clearError (exception : Option JerryValue)
  | takeError
  | tryReportError
  | pushContext (context : JerryValue)
  | popContext
  | getGlobalSymbol (name : JerryValue)
  | pushHandleScope (type : JerryHandleScopeType) (handle_scope : Nat)
  | popHandleScope (handle_scope : Nat)
  | addToHandleScope (jvalue : JerryHandle)
  | escapeHandle (jvalue : JerryHandle)
  | sealHandleScope (handle_scope : Nat)
  | addTemplate (handle : JerryHandle)
  | reportFatalError
  | enqueueMicrotask (func : JerryValue)
  | runMicrotasks (fuel : Nat)
  | setEternal (value : JerryValue) (index : Int)
  | addUTF16String (str buffer : Nat)
  | removeUTF16String (buffer : Nat)
  | hiddenObjectTemplate
deriving DecidableEq, Repr

/-- Performs one operation. -/
def perform (E : Engine) : Operation → JerryIsolate → Except Fault JerryIsolate
  | Operation.enter, iso => .ok (Enter iso)
  | Operation.exit, iso => .ok (Exit iso)
  | Operation.terminate, iso => .ok (Terminate iso)
  | Operation.cancelTerminate, iso => .ok (CancelTerminate iso)
  | Operation.pushTryCatch try_catch_obj, iso => .ok (PushTryCatch try_catch_obj iso).2
  | Operation.popTryCatch try_catch_obj, iso => .ok (PopTryCatch try_catch_obj iso)
  | Operation.setError error_value, iso => SetError E error_value iso
  | Operation.clearError exception, iso => .ok (ClearError exception iso)
  | Operation.takeError, iso => .ok (TakeError iso).2
  | Operation.tryReportError, iso => TryReportError E iso
  | Operation.pushContext context, iso => .ok (PushContext E context iso)
  | Operation.popContext, iso => PopContext E iso
  | Operation.getGlobalSymbol name, iso => .ok (GetGlobalSymbol E name iso).2
  | Operation.pushHandleScope type handle_scope, iso => .ok (PushHandleScope type handle_scope iso)
  | Operation.popHandleScope handle_scope, iso => PopHandleScope handle_scope iso
  | Operation.addToHandleScope jvalue, iso => AddToHandleScope jvalue iso
  | Operation.escapeHandle jvalue, iso => EscapeHandle jvalue iso
  | Operation.sealHandleScope handle_scope, iso => SealHandleScope handle_scope iso
  | Operation.addTemplate handle, iso => .ok (AddTemplate handle iso)
  | Operation.reportFatalError, iso => ReportFatalError iso
  | Operation.enqueueMicrotask func, iso => .ok (EnqueueMicrotask func iso)
  | Operation.runMicrotasks fuel, iso => RunMicrotasks E fuel iso
  | Operation.setEternal value index, iso =>
    match SetEternal value index iso with
    | .error e => .error e
    | .ok result => .ok result.2
  | Operation.addUTF16String str buffer, iso => AddUTF16String str buffer iso
  | Operation.removeUTF16String buffer, iso => RemoveUTF16String buffer iso
  | Operation.hiddenObjectTemplate, iso => .ok (HiddenObjectTemplate iso).2

/-- Performs a sequence of operations, stopping at the first fault. -/
def performAll (E : Engine) : List Operation → JerryIsolate → Except Fault JerryIsolate
  | [], iso => .ok iso
  | op :: ops, iso =>
    match perform E op iso with
    | .error e => .error e
    | .ok iso1 => performAll E ops iso1

/-! ## Nested try-catch frames -/

/-- A call made by a try-catch frame.  The frame that is opened calls `PushTryCatch` with
itself and keeps the returned reference; the frame that is closed is the innermost open one
and calls `PopTryCatch` with the reference it kept. -/
inductive TryCatchCall where
  | enter (frame : Nat)
  | leave
deriving DecidableEq, Repr

/-- Runs a sequence of try-catch calls.  The list holds the references kept by the open
frames, innermost first.  A `leave` with no open frame is not a nested sequence and gives
`none`. -/
def runTryCatch : List TryCatchCall → List (Option Nat) → JerryIsolate →
    Option (List (Option Nat) × JerryIsolate)
  | [], kept, iso => some (kept, iso)
  | TryCatchCall.enter frame :: rest, kept, iso =>
    runTryCatch rest ((PushTryCatch (some frame) iso).1 :: kept) (PushTryCatch (some frame) iso).2
  | TryCatchCall.leave :: _, [], _ => none
  | TryCatchCall.leave :: rest, previous :: kept, iso =>
    runTryCatch rest kept (PopTryCatch previous iso)

/-- The number of frames opened in a sequence. -/
def enterCount : List TryCatchCall → Nat
  | [] => 0
  | TryCatchCall.enter _ :: cs => enterCount cs + 1
  | TryCatchCall.leave :: cs => enterCount cs

/-- The number of frames closed in a sequence. -/
def leaveCount : List TryCatchCall → Nat
  | [] => 0
  | TryCatchCall.enter _ :: cs => leaveCount cs
  | TryCatchCall.leave :: cs => leaveCount cs + 1

/-! ## Theorems -/

/-! ### Handle scopes -/

theorem releasedHandles_append (t u : List Effect) :
    releasedHandles (t ++ u) = releasedHandles t ++ releasedHandles u := by
  induction t with
  | nil => rfl
  | cons e t ih => cases e <;> simp [releasedHandles, ih]

theorem releasedHandles_map_deleteHandle (hs : List JerryHandle) :
    releasedHandles (hs.map Effect.deleteHandle) = hs := by
  induction hs with
  | nil => rfl
  | cons h hs ih => simp [releasedHandles, ih]

theorem PopHandleScope_top (iso : JerryIsolate) (below : List JerryHandleScope)
    (top : JerryHandleScope) (h : iso.m_handleScopes = below ++ [top]) :
    PopHandleScope top.m_v8handle_scope iso =
      .ok { iso with m_handleScopes := below, trace := iso.trace ++ top.destroy } := by
  simp [PopHandleScope, h, JerryHandleScope.V8HandleScope]

theorem OpenScopes.add {tokens : List Nat} {pre : List ScopeCall} (h : OpenScopes tokens pre)
    (jvalue : JerryHandle) : OpenScopes tokens (pre ++ [ScopeCall.add jvalue]) := by
  cases h with
  | base seg hseg => exact OpenScopes.base _ (Balanced.add _ _ hseg)
  | frame tokens pre seg type handle_scope hpre hseg =>
    have := OpenScopes.frame tokens pre (seg ++ [ScopeCall.add jvalue]) type handle_scope hpre
      (Balanced.add _ _ hseg)
    simpa using this

theorem OpenScopes.push {tokens : List Nat} {pre : List ScopeCall} (h : OpenScopes tokens pre)
    (type : JerryHandleScopeType) (handle_scope : Nat) :
    OpenScopes (handle_scope :: tokens) (pre ++ [ScopeCall.push type handle_scope]) :=
  OpenScopes.frame tokens pre [] type handle_scope h Balanced.nil

theorem OpenScopes.pop {tokens : List Nat} {pre : List ScopeCall} {handle_scope : Nat}
    (h : OpenScopes (handle_scope :: tokens) pre) :
    OpenScopes tokens (pre ++ [ScopeCall.pop handle_scope]) := by
  cases h with
  | frame tokens pre seg type handle_scope hpre hseg =>
    cases hpre with
    | base _ hseg0 =>
      have := OpenScopes.base _ (Balanced.scope _ seg type handle_scope hseg0 hseg)
      simpa using this
    | frame tokens1 pre1 seg1 type1 handle_scope1 hpre1 hseg1 =>
      have := OpenScopes.frame tokens1 pre1
        (seg1 ++ ScopeCall.push type handle_scope :: (seg ++ [ScopeCall.pop handle_scope]))
        type1 handle_scope1 hpre1 (Balanced.scope seg1 seg type handle_scope hseg1 hseg)
      simpa using this

theorem EscapeHandle_tracked (jvalue : JerryHandle) (iso : JerryIsolate)
    (below : List JerryHandleScope) (parent current : JerryHandleScope)
    (h : iso.m_handleScopes = below ++ [parent, current])
    (hv : jvalue ∈ current.m_handles) (hp : parent.m_type ≠ JerryHandleScopeType.Sealed) :
    EscapeHandle jvalue iso =
      .ok { iso with
        m_handleScopes := below ++
          [{ parent with m_handles := parent.m_handles ++ [jvalue] },
            { current with m_handles := current.m_handles.erase jvalue }] } := by
  simp [EscapeHandle, h, JerryHandleScope.RemoveHandle, hv, JerryHandleScope.AddHandle, hp]

/-- C2, as stated, fails: a handle added twice to the child frame is still tracked by the
child after `EscapeHandle`, so the pop of the child releases it; a handle that the parent
tracks as well is released twice by the pop of the parent; and with a sealed parent
`EscapeHandle` stops in the assertion of `AddHandle`. -/
theorem escaped_handle_release_counterexample :
    ((runCalls
        [ScopeCall.push JerryHandleScopeType.Normal 1, ScopeCall.push JerryHandleScopeType.Normal 2,
          ScopeCall.add 6, ScopeCall.add 6] JerryIsolate.initial
        >>= EscapeHandle 6 >>= PopHandleScope 2).map JerryIsolate.trace)
      = .ok [Effect.deleteHandle 6]
    ∧ ((runCalls
        [ScopeCall.push JerryHandleScopeType.Normal 1, ScopeCall.add 6,
          ScopeCall.push JerryHandleScopeType.Normal 2, ScopeCall.add 6] JerryIsolate.initial
        >>= EscapeHandle 6 >>= PopHandleScope 2).map JerryIsolate.trace)
      = .ok []
    ∧ ((runCalls
        [ScopeCall.push JerryHandleScopeType.Normal 1, ScopeCall.add 6,
          ScopeCall.push JerryHandleScopeType.Normal 2, ScopeCall.add 6] JerryIsolate.initial
        >>= EscapeHandle 6 >>= PopHandleScope 2 >>= PopHandleScope 1).map JerryIsolate.trace)
      = .ok [Effect.deleteHandle 6, Effect.deleteHandle 6]
    ∧ ((SealHandleScope 1 (PushHandleScope JerryHandleScopeType.Normal 1 JerryIsolate.initial)
        >>= runCalls [ScopeCall.push JerryHandleScopeType.Normal 2, ScopeCall.add 6]).map
          JerryIsolate.m_handleScopes)
      = .ok [⟨JerryHandleScopeType.Sealed, 1, []⟩, ⟨JerryHandleScopeType.Normal, 2, [6]⟩]
    ∧ (SealHandleScope 1 (PushHandleScope JerryHandleScopeType.Normal 1 JerryIsolate.initial)
        >>= runCalls [ScopeCall.push JerryHandleScopeType.Normal 2, ScopeCall.add 6]
        >>= EscapeHandle 6)
      = .error Fault.assertion :=
  ⟨rfl, rfl, rfl, rfl, rfl⟩

/-- C2 (amended): a handle added exactly once to a child frame `child` that sits above a
frame `parent` which does not track it and is not sealed: `EscapeHandle`, then
`PopHandleScope` of the child, then `PopHandleScope` of the parent all return normally; the
pop of the child releases
the other handles of the child but not the escaped one (the number of releases of the handle
is what it was before), and the pop of the parent releases the parent's handles followed by
the escaped one, which is thereby released exactly once. -/
theorem escaped_handle_released_by_parent (jvalue : JerryHandle) (iso : JerryIsolate)
    (below : List JerryHandleScope) (parent child : JerryHandleScope)
    (h : iso.m_handleScopes = below ++ [parent, child])
    (hchild : child.m_handles.count jvalue = 1) (hparent : jvalue ∉ parent.m_handles)
    (hp : parent.m_type ≠ JerryHandleScopeType.Sealed) :
    ∃ s1 s2 s3 : JerryIsolate,
      EscapeHandle jvalue iso = .ok s1
      ∧ PopHandleScope child.m_v8handle_scope s1 = .ok s2
      ∧ PopHandleScope parent.m_v8handle_scope s2 = .ok s3
      ∧ s1.trace = iso.trace
      ∧ s2.trace = iso.trace ++ (child.m_handles.erase jvalue).map Effect.deleteHandle
      ∧ Effect.deleteHandle jvalue ∉ (child.m_handles.erase jvalue).map Effect.deleteHandle
      ∧ (releasedHandles s2.trace).count jvalue = (releasedHandles iso.trace).count jvalue
      ∧ s3.trace = s2.trace ++ (parent.m_handles ++ [jvalue]).map Effect.deleteHandle
      ∧ (releasedHandles s3.trace).count jvalue = (releasedHandles iso.trace).count jvalue + 1
      ∧ s3.m_handleScopes = below := by
  have hv : jvalue ∈ child.m_handles := List.count_pos_iff.mp (by omega)
  have herase : jvalue ∉ child.m_handles.erase jvalue := by
    intro hmem
    have : 0 < (child.m_handles.erase jvalue).count jvalue := List.count_pos_iff.mpr hmem
    rw [List.count_erase_self] at this
    omega
  have hpar0 : parent.m_handles.count jvalue = 0 := List.count_eq_zero.mpr hparent
  have her0 : (child.m_handles.erase jvalue).count jvalue = 0 := List.count_eq_zero.mpr herase
  refine ⟨_, _, _, EscapeHandle_tracked jvalue iso below parent child h hv hp,
    PopHandleScope_top _ (below ++ [{ parent with m_handles := parent.m_handles ++ [jvalue] }])
      { child with m_handles := child.m_handles.erase jvalue } (by simp),
    PopHandleScope_top _ below { parent with m_handles := parent.m_handles ++ [jvalue] } rfl,
    rfl, rfl, ?_, ?_, rfl, ?_, rfl⟩
  · simpa using herase
  · simp [releasedHandles_append, releasedHandles_map_deleteHandle, JerryHandleScope.destroy,
      her0]
  · simp only [releasedHandles_append, releasedHandles_map_deleteHandle,
      JerryHandleScope.destroy, List.count_append, List.count_singleton, beq_self_eq_true,
      if_true]
    omega

/-- Witness for C2: the child frame (token 2) tracks `[6, 7]`, the parent (token 1) tracks
`[5]`; after escaping 6 the pop of the child releases 7 only and the pop of the parent
releases 5 and then 6. -/
theorem escaped_handle_released_by_parent_witness :
    ∃ s1 s2 s3 : JerryIsolate,
      EscapeHandle 6
          { JerryIsolate.initial with
            m_handleScopes :=
              [⟨JerryHandleScopeType.Normal, 1, [5]⟩, ⟨JerryHandleScopeType.Escapable, 2, [6, 7]⟩] }
        = .ok s1
      ∧ PopHandleScope 2 s1 = .ok s2
      ∧ PopHandleScope 1 s2 = .ok s3
      ∧ s2.trace = [Effect.deleteHandle 7]
      ∧ s3.trace = [Effect.deleteHandle 7, Effect.deleteHandle 5, Effect.deleteHandle 6] := by
  obtain ⟨s1, s2, s3, h1, h2, h3, -, h5, -, -, h8, -, -⟩ :=
    escaped_handle_released_by_parent 6
      { JerryIsolate.initial with
        m_handleScopes :=
          [⟨JerryHandleScopeType.Normal, 1, [5]⟩, ⟨JerryHandleScopeType.Escapable, 2, [6, 7]⟩] }
      [] ⟨JerryHandleScopeType.Normal, 1, [5]⟩ ⟨JerryHandleScopeType.Escapable, 2, [6, 7]⟩
      rfl (by decide) (by decide) (by decide)
  refine ⟨s1, s2, s3, h1, h2, h3, ?_, ?_⟩
  · rw [h5]; rfl
  · rw [h8, h5]; rfl

/-- C3, as stated, fails: a handle tracked twice by the innermost frame is tracked by both
the innermost frame and its parent after `EscapeHandle`; a handle that a frame below the
parent tracks as well is tracked by that frame and by the parent afterwards; and with a
sealed parent `EscapeHandle` stops in the assertion of `AddHandle` and moves nothing. -/
theorem EscapeHandle_tracked_once_counterexample :
    ((runCalls
        [ScopeCall.push JerryHandleScopeType.Normal 1, ScopeCall.push JerryHandleScopeType.Normal 2,
          ScopeCall.add 6, ScopeCall.add 6] JerryIsolate.initial
        >>= EscapeHandle 6).map JerryIsolate.m_handleScopes)
      = .ok [⟨JerryHandleScopeType.Normal, 1, [6]⟩, ⟨JerryHandleScopeType.Normal, 2, [6]⟩]
    ∧ ((runCalls
        [ScopeCall.push JerryHandleScopeType.Normal 1, ScopeCall.add 6,
          ScopeCall.push JerryHandleScopeType.Normal 2,
          ScopeCall.push JerryHandleScopeType.Normal 3, ScopeCall.add 6] JerryIsolate.initial
        >>= EscapeHandle 6).map JerryIsolate.m_handleScopes)
      = .ok [⟨JerryHandleScopeType.Normal, 1, [6]⟩, ⟨JerryHandleScopeType.Normal, 2, [6]⟩,
          ⟨JerryHandleScopeType.Normal, 3, []⟩]
    ∧ EscapeHandle 6
        { JerryIsolate.initial with
          m_handleScopes :=
            [⟨JerryHandleScopeType.Sealed, 1, []⟩, ⟨JerryHandleScopeType.Normal, 2, [6]⟩] }
      = .error Fault.assertion
    ∧ ((SealHandleScope 1 (PushHandleScope JerryHandleScopeType.Normal 1 JerryIsolate.initial)
        >>= runCalls [ScopeCall.push JerryHandleScopeType.Normal 2, ScopeCall.add 6]).map
          JerryIsolate.m_handleScopes)
      = .ok [⟨JerryHandleScopeType.Sealed, 1, []⟩, ⟨JerryHandleScopeType.Normal, 2, [6]⟩] :=
  ⟨rfl, rfl, rfl, rfl⟩

/-- C3 (amended): on a scope stack `below ++ [parent, current]` (at least two frames) whose
parent frame is not sealed, for a handle tracked by the innermost frame `current`,
`EscapeHandle` returns normally; it removes one entry of the handle from `current`, appends
the handle to `parent`, and leaves the frames `below` and the number of frames unchanged.
The number of entries of every handle in the whole stack is preserved.  A handle that
`current` tracked once and no frame of `below` tracked is afterwards tracked by the parent
and by no other frame; a handle that was tracked exactly once in the whole stack is
afterwards tracked exactly once, by `parent`. -/
theorem EscapeHandle_moves_to_parent (jvalue : JerryHandle) (iso : JerryIsolate)
    (below : List JerryHandleScope) (parent current : JerryHandleScope)
    (h : iso.m_handleScopes = below ++ [parent, current])
    (hv : jvalue ∈ current.m_handles) (hp : parent.m_type ≠ JerryHandleScopeType.Sealed) :
    ∃ s : JerryIsolate,
      EscapeHandle jvalue iso = .ok s
      ∧ s = { iso with
          m_handleScopes := below ++
            [{ parent with m_handles := parent.m_handles ++ [jvalue] },
              { current with m_handles := current.m_handles.erase jvalue }] }
      ∧ s.m_handleScopes.length = iso.m_handleScopes.length
      ∧ (∀ x : JerryHandle, (tracked s).count x = (tracked iso).count x)
      ∧ ((tracked iso).count jvalue = 1 →
          (tracked s).count jvalue = 1
          ∧ jvalue ∈ parent.m_handles ++ [jvalue]
          ∧ jvalue ∉ current.m_handles.erase jvalue
          ∧ ∀ f ∈ below, jvalue ∉ f.m_handles)
      ∧ (current.m_handles.count jvalue = 1 → (∀ f ∈ below, jvalue ∉ f.m_handles) →
          ∀ f ∈ s.m_handleScopes, jvalue ∈ f.m_handles →
            f = { parent with m_handles := parent.m_handles ++ [jvalue] }) := by
  refine ⟨_, EscapeHandle_tracked jvalue iso below parent current h hv hp, rfl, ?_, ?_, ?_, ?_⟩
  · simp [h]
  · intro x
    simp only [tracked, h, List.flatMap_append, List.flatMap_cons, List.flatMap_nil,
      List.append_nil, List.count_append, List.count_singleton]
    by_cases hx : x = jvalue
    · subst hx
      have hpos : 0 < current.m_handles.count x := List.count_pos_iff.mpr hv
      simp only [List.count_erase_self, beq_self_eq_true, if_true]
      omega
    · have hx1 : (jvalue == x) = false := by simpa using fun hjx => hx hjx.symm
      rw [List.count_erase_of_ne hx]
      simp [hx1]
  · intro hone
    have hpos : 0 < current.m_handles.count jvalue := List.count_pos_iff.mpr hv
    simp only [tracked, h, List.flatMap_append, List.flatMap_cons, List.flatMap_nil,
      List.append_nil, List.count_append] at hone
    have hcur : current.m_handles.count jvalue = 1 := by omega
    have hbelow : (below.flatMap JerryHandleScope.m_handles).count jvalue = 0 := by omega
    have hpar : parent.m_handles.count jvalue = 0 := by omega
    refine ⟨?_, by simp, ?_, ?_⟩
    · simp only [tracked, List.flatMap_append, List.flatMap_cons, List.flatMap_nil,
        List.append_nil, List.count_append, List.count_singleton, List.count_erase_self,
        beq_self_eq_true, if_true]
      omega
    · intro hmem
      have : 0 < (current.m_handles.erase jvalue).count jvalue := List.count_pos_iff.mpr hmem
      rw [List.count_erase_self] at this
      omega
    · intro f hf hmem
      have : jvalue ∈ below.flatMap JerryHandleScope.m_handles :=
        List.mem_flatMap.mpr ⟨f, hf, hmem⟩
      have : 0 < (below.flatMap JerryHandleScope.m_handles).count jvalue :=
        List.count_pos_iff.mpr this
      omega
  · intro hcur hbelow f hf hmem
    simp only [List.mem_append, List.mem_cons, List.mem_singleton, List.not_mem_nil,
      or_false] at hf
    rcases hf with hf | hf | hf
    · exact absurd hmem (hbelow f hf)
    · exact hf
    · subst hf
      have hpos : 0 < (current.m_handles.erase jvalue).count jvalue :=
        List.count_pos_iff.mpr hmem
      rw [List.count_erase_self] at hpos
      omega

/-- Witness for C3: frames with tokens 1, 2, 3 tracking `[4]`, `[5]`, `[6, 7]`; escaping 6
moves it from the innermost frame to the frame with token 2. -/
theorem EscapeHandle_moves_to_parent_witness :
    ∃ s : JerryIsolate,
      EscapeHandle 6
          { JerryIsolate.initial with
            m_handleScopes :=
              [⟨JerryHandleScopeType.Normal, 1, [4]⟩, ⟨JerryHandleScopeType.Normal, 2, [5]⟩,
                ⟨JerryHandleScopeType.Escapable, 3, [6, 7]⟩] } = .ok s
      ∧ s.m_handleScopes =
          [⟨JerryHandleScopeType.Normal, 1, [4]⟩, ⟨JerryHandleScopeType.Normal, 2, [5, 6]⟩,
            ⟨JerryHandleScopeType.Escapable, 3, [7]⟩]
      ∧ (tracked s).count 6 = 1 := by
  obtain ⟨s, hrun, hs, -, -, hone, -⟩ := EscapeHandle_moves_to_parent 6
    { JerryIsolate.initial with
      m_handleScopes :=
        [⟨JerryHandleScopeType.Normal, 1, [4]⟩, ⟨JerryHandleScopeType.Normal, 2, [5]⟩,
          ⟨JerryHandleScopeType.Escapable, 3, [6, 7]⟩] }
    [⟨JerryHandleScopeType.Normal, 1, [4]⟩] ⟨JerryHandleScopeType.Normal, 2, [5]⟩
    ⟨JerryHandleScopeType.Escapable, 3, [6, 7]⟩ rfl (by decide) (by decide)
  refine ⟨s, hrun, ?_, (hone (by decide)).1⟩
  rw [hs]
  rfl

/-- C4: on a scope stack `below ++ [parent, current]` (at least two frames), for a handle that
the innermost frame `current` does not track, `EscapeHandle` returns normally and leaves the
isolate, hence every frame of the scope stack, unchanged. -/
theorem EscapeHandle_untracked_unchanged (jvalue : JerryHandle) (iso : JerryIsolate)
    (below : List JerryHandleScope) (parent current : JerryHandleScope)
    (h : iso.m_handleScopes = below ++ [parent, current])
    (hv : jvalue ∉ current.m_handles) :
    EscapeHandle jvalue iso = .ok iso := by
  cases iso
  simp_all [EscapeHandle, JerryHandleScope.RemoveHandle]

/-- Witness for C4: handle 9 is tracked by the parent frame only; escaping it changes
nothing. -/
theorem EscapeHandle_untracked_unchanged_witness :
    EscapeHandle 9
        { JerryIsolate.initial with
          m_handleScopes :=
            [⟨JerryHandleScopeType.Normal, 1, [9]⟩, ⟨JerryHandleScopeType.Escapable, 2, [6]⟩] }
      = .ok { JerryIsolate.initial with
          m_handleScopes :=
            [⟨JerryHandleScopeType.Normal, 1, [9]⟩, ⟨JerryHandleScopeType.Escapable, 2, [6]⟩] } :=
  EscapeHandle_untracked_unchanged 9 _ [] ⟨JerryHandleScopeType.Normal, 1, [9]⟩
    ⟨JerryHandleScopeType.Escapable, 2, [6]⟩ rfl (by decide)

/-- C5: on a scope stack `below ++ [top]`, `PopHandleScope` with the token recorded by `top`
removes exactly the frame `top` (releasing its handles) and leaves the frames `below`
unchanged; with any other token it stops with an assertion failure and pops nothing.  So
whenever `PopHandleScope` returns normally, the supplied token is the token of the top frame
and the resulting stack is `below`; on an empty stack it never returns normally. -/
theorem PopHandleScope_only_matching_top (handle_scope : Nat) (iso : JerryIsolate)
    (below : List JerryHandleScope) (top : JerryHandleScope)
    (h : iso.m_handleScopes = below ++ [top]) :
    (top.V8HandleScope = handle_scope →
        PopHandleScope handle_scope iso =
          .ok { iso with m_handleScopes := below, trace := iso.trace ++ top.destroy })
    ∧ (top.V8HandleScope ≠ handle_scope →
        PopHandleScope handle_scope iso = .error Fault.assertion)
    ∧ (∀ s : JerryIsolate, PopHandleScope handle_scope iso = .ok s →
        top.V8HandleScope = handle_scope ∧ s.m_handleScopes = below)
    ∧ (∀ (token : Nat) (empty : JerryIsolate), empty.m_handleScopes = [] →
        PopHandleScope token empty = .error Fault.emptyBack) := by
  refine ⟨?_, ?_, ?_, ?_⟩
  · intro ht
    simp [PopHandleScope, h, ht]
  · intro ht
    simp [PopHandleScope, h, ht]
  · intro s hs
    by_cases ht : top.V8HandleScope = handle_scope
    · simp only [PopHandleScope, h, List.getLast?_append, List.getLast?_singleton,
        Option.or_some, ht, if_true, Except.ok.injEq, List.dropLast_concat] at hs
      subst hs
      exact ⟨ht, rfl⟩
    · simp [PopHandleScope, h, ht] at hs
  · intro token empty he
    simp [PopHandleScope, he]

/-- Witness for C5: with frames of tokens 1 and 2 on the stack, popping with token 2 removes
the top frame, and popping with token 1 (a frame that is not the top) is rejected. -/
theorem PopHandleScope_only_matching_top_witness :
    PopHandleScope 2
        { JerryIsolate.initial with
          m_handleScopes :=
            [⟨JerryHandleScopeType.Normal, 1, [5]⟩, ⟨JerryHandleScopeType.Normal, 2, [6]⟩] }
      = .ok { JerryIsolate.initial with
          m_handleScopes := [⟨JerryHandleScopeType.Normal, 1, [5]⟩]
          trace := [Effect.deleteHandle 6] }
    ∧ PopHandleScope 1
        { JerryIsolate.initial with
          m_handleScopes :=
            [⟨JerryHandleScopeType.Normal, 1, [5]⟩, ⟨JerryHandleScopeType.Normal, 2, [6]⟩] }
      = .error Fault.assertion :=
  ⟨(PopHandleScope_only_matching_top 2 _ [⟨JerryHandleScopeType.Normal, 1, [5]⟩]
      ⟨JerryHandleScopeType.Normal, 2, [6]⟩ rfl).1 rfl,
    (PopHandleScope_only_matching_top 1 _ [⟨JerryHandleScopeType.Normal, 1, [5]⟩]
      ⟨JerryHandleScopeType.Normal, 2, [6]⟩ rfl).2.1 (by decide)⟩

/-! ### Eternal store -/

theorem toInt32_of_lt (n : Nat) (h : n < 2 ^ 31) : toInt32 n = (n : Int) := by
  have h1 : n % 2 ^ 32 = n := Nat.mod_eq_of_lt (by omega)
  unfold toInt32
  rw [h1, if_pos h]

theorem set_length_append_singleton (l : List JerryValue) (v w : JerryValue) :
    (l ++ [v]).set l.length w = l ++ [w] := by
  induction l with
  | nil => rfl
  | cons a l ih => simp [ih]

/-- C6, as stated, fails: with `2 ^ 31` entries in the eternal store, `SetEternal` called with
the sentinel index -1 appends the value but sets the index to `-2 ^ 31`, which is not the
size of the store, and a further call with that index is out of range. -/
theorem SetEternal_index_wraps_counterexample :
    SetEternal ⟨1, 1⟩ (-1)
        { JerryIsolate.initial with m_eternals := List.replicate (2 ^ 31) ⟨0, 0⟩ }
      = .ok (-2147483648,
          { JerryIsolate.initial with
            m_eternals := List.replicate (2 ^ 31) ⟨0, 0⟩ ++ [⟨1, 1⟩] })
    ∧ (-2147483648 : Int) ≠
        (({ JerryIsolate.initial with
            m_eternals := List.replicate (2 ^ 31) ⟨0, 0⟩ } : JerryIsolate).m_eternals.length : Int)
    ∧ SetEternal ⟨2, 2⟩ (-2147483648)
        { JerryIsolate.initial with
          m_eternals := List.replicate (2 ^ 31) ⟨0, 0⟩ ++ [⟨1, 1⟩] }
      = .error Fault.outOfRange := by
  refine ⟨?_, ?_, ?_⟩
  · have h : toInt32 (2 ^ 31) = -2147483648 := by
      unfold toInt32
      norm_num
    unfold SetEternal
    rw [if_pos rfl]
    simp only [List.length_replicate]
    rw [h]
  · intro h
    have := Int.ofNat_nonneg (({ JerryIsolate.initial with
      m_eternals := List.replicate (2 ^ 31) ⟨0, 0⟩ } : JerryIsolate).m_eternals.length)
    omega
  · have h1 : ¬ ((-2147483648 : Int) = -1) := by norm_num
    have h2 : ¬ ((0 : Int) ≤ -2147483648) := by norm_num
    unfold SetEternal
    rw [if_neg h1, if_neg (fun h => h2 h.1)]

/-- C6 (amended): for every eternal store of size `n < 2 ^ 31`, `SetEternal` with index -1
appends the value, sets the index to `n` and grows the store to `n + 1` entries; the next
call with index -1 (while `n + 1 < 2 ^ 31`) sets the index to `n + 1`, strictly larger; and a
further call with the returned index `n` stores the new value at position `n`, leaving the
index, the size and every other entry unchanged. -/
theorem SetEternal_append_then_overwrite (value w : JerryValue) (iso : JerryIsolate)
    (hn : iso.m_eternals.length < 2 ^ 31) :
    SetEternal value (-1) iso =
        .ok ((iso.m_eternals.length : Int),
          { iso with m_eternals := iso.m_eternals ++ [value] })
    ∧ (iso.m_eternals ++ [value]).length = iso.m_eternals.length + 1
    ∧ (iso.m_eternals.length + 1 < 2 ^ 31 → ∀ value2 : JerryValue,
        SetEternal value2 (-1) { iso with m_eternals := iso.m_eternals ++ [value] } =
          .ok ((iso.m_eternals.length : Int) + 1,
            { iso with m_eternals := iso.m_eternals ++ [value] ++ [value2] }))
    ∧ SetEternal w (iso.m_eternals.length : Int)
          { iso with m_eternals := iso.m_eternals ++ [value] } =
        .ok ((iso.m_eternals.length : Int), { iso with m_eternals := iso.m_eternals ++ [w] })
    ∧ (iso.m_eternals ++ [w]).length = (iso.m_eternals ++ [value]).length
    ∧ (iso.m_eternals ++ [w])[iso.m_eternals.length]? = some w
    ∧ ∀ i : Nat, i ≠ iso.m_eternals.length →
        (iso.m_eternals ++ [w])[i]? = (iso.m_eternals ++ [value])[i]? := by
  refine ⟨?_, by simp, ?_, ?_, by simp, by simp, ?_⟩
  · simp [SetEternal, toInt32_of_lt _ hn]
  · intro hn1 value2
    have := toInt32_of_lt _ hn1
    simp [SetEternal, this]
  · have hne : ¬ ((iso.m_eternals.length : Int) = -1) := by omega
    simp [SetEternal, hne, set_length_append_singleton]
  · intro i hi
    rcases Nat.lt_or_gt_of_ne hi with hlt | hgt
    · simp [List.getElem?_append_left hlt]
    · have h1 : (iso.m_eternals ++ [w]).length ≤ i := by simp; omega
      have h2 : (iso.m_eternals ++ [value]).length ≤ i := by simp; omega
      rw [List.getElem?_eq_none h1, List.getElem?_eq_none h2]

/-- Witness for C6 (amended): a store holding one eternal; the sentinel call appends at
index 1, and the call with index 1 overwrites that entry. -/
theorem SetEternal_append_then_overwrite_witness :
    SetEternal ⟨7, 70⟩ (-1) { JerryIsolate.initial with m_eternals := [⟨5, 50⟩] }
      = .ok (1, { JerryIsolate.initial with m_eternals := [⟨5, 50⟩, ⟨7, 70⟩] })
    ∧ SetEternal ⟨8, 80⟩ 1 { JerryIsolate.initial with m_eternals := [⟨5, 50⟩, ⟨7, 70⟩] }
      = .ok (1, { JerryIsolate.initial with m_eternals := [⟨5, 50⟩, ⟨8, 80⟩] }) :=
  have h := SetEternal_append_then_overwrite ⟨7, 70⟩ ⟨8, 80⟩
    { JerryIsolate.initial with m_eternals := [⟨5, 50⟩] } (by norm_num)
  ⟨h.1, h.2.2.2.1⟩

/-! ### Global symbols -/

theorem GetGlobalSymbol_hit (E : Engine) (name : JerryValue) (iso : JerryIsolate)
    (it : jerry_value_t × jerry_value_t)
    (h : iso.m_global_symbols.find? (fun it => E.strict_equal it.1 name.value) = some it) :
    GetGlobalSymbol E name iso =
      (it.2, { iso with trace := iso.trace ++ [Effect.acquire it.2] }) := by
  simp [GetGlobalSymbol, h]

theorem GetGlobalSymbol_miss (E : Engine) (name : JerryValue) (iso : JerryIsolate)
    (h : iso.m_global_symbols.find? (fun it => E.strict_equal it.1 name.value) = none) :
    GetGlobalSymbol E name iso =
      (iso.engine_next_symbol,
        { iso with
          m_global_symbols := iso.m_global_symbols ++ [(name.value, iso.engine_next_symbol)]
          engine_next_symbol := iso.engine_next_symbol + 1
          trace := iso.trace ++
            [Effect.createSymbol name.value iso.engine_next_symbol, Effect.acquire name.value,
              Effect.acquire iso.engine_next_symbol] }) := by
  simp [GetGlobalSymbol, h]

theorem GetGlobalSymbol_tableOk (E : Engine) (name : JerryValue) (iso : JerryIsolate)
    (hok : SymbolTableOk E iso) : SymbolTableOk E (GetGlobalSymbol E name iso).2 := by
  obtain ⟨hpair, hnodup, hbound⟩ := hok
  cases hf : iso.m_global_symbols.find? (fun it => E.strict_equal it.1 name.value) with
  | some it =>
    rw [GetGlobalSymbol_hit E name iso it hf]
    exact ⟨hpair, hnodup, hbound⟩
  | none =>
    rw [GetGlobalSymbol_miss E name iso hf]
    have hmiss := List.find?_eq_none.mp hf
    refine ⟨?_, ?_, ?_⟩
    · simp only [List.pairwise_append, List.pairwise_singleton, List.mem_singleton, true_and]
      refine ⟨hpair, ?_⟩
      intro p hp q hq
      subst hq
      simpa using hmiss p hp
    · simp only [List.map_append, List.map_cons, List.map_nil]
      rw [List.nodup_append]
      refine ⟨hnodup, by simp, ?_⟩
      intro x hx hx2
      simp only [List.mem_singleton] at hx2
      subst hx2
      obtain ⟨p, hp, hpx⟩ := List.mem_map.mp hx
      have hlt := hbound p hp
      rw [hpx] at hlt
      exact Nat.lt_irrefl _ hlt
    · intro p hp
      simp only [List.mem_append, List.mem_singleton] at hp
      rcases hp with hp | hp
      · exact Nat.lt_succ_of_lt (hbound p hp)
      · subst hp
        exact Nat.lt_succ_self _

theorem GetGlobalSymbol_table_grows (E : Engine) (name : JerryValue) (iso : JerryIsolate)
    (p : jerry_value_t × jerry_value_t) (hp : p ∈ iso.m_global_symbols) :
    p ∈ (GetGlobalSymbol E name iso).2.m_global_symbols := by
  cases hf : iso.m_global_symbols.find? (fun it => E.strict_equal it.1 name.value) with
  | some it =>
    rw [GetGlobalSymbol_hit E name iso it hf]
    exact hp
  | none =>
    rw [GetGlobalSymbol_miss E name iso hf]
    exact List.mem_append_left _ hp

theorem GetGlobalSymbol_associated (E : Engine) (name : JerryValue) (iso : JerryIsolate) :
    Associated E (GetGlobalSymbol E name iso).2 name.value (GetGlobalSymbol E name iso).1 := by
  cases hf : iso.m_global_symbols.find? (fun it => E.strict_equal it.1 name.value) with
  | some it =>
    rw [GetGlobalSymbol_hit E name iso it hf]
    have hit : E.strict_equal it.1 name.value = true := by
      have h := List.find?_some hf
      exact h
    exact ⟨it, List.mem_of_find?_eq_some hf, rfl, Or.inr hit⟩
  | none =>
    rw [GetGlobalSymbol_miss E name iso hf]
    exact ⟨(name.value, iso.engine_next_symbol), by simp, rfl, Or.inl rfl⟩

theorem Later_tableOk (E : Engine) (s t : JerryIsolate) (h : Later E s t)
    (hok : SymbolTableOk E s) : SymbolTableOk E t := by
  induction h with
  | now => exact hok
  | getGlobalSymbol name _ ih => exact GetGlobalSymbol_tableOk E name _ ih
  | other _ htable hnext ih =>
    obtain ⟨hpair, hnodup, hbound⟩ := ih
    refine ⟨by rw [htable]; exact hpair, by rw [htable]; exact hnodup, ?_⟩
    intro p hp
    rw [htable] at hp
    exact Nat.lt_of_lt_of_le (hbound p hp) hnext

theorem Later_associated (E : Engine) (s t : JerryIsolate) (h : Later E s t)
    (name symbol : jerry_value_t) (ha : Associated E s name symbol) :
    Associated E t name symbol := by
  induction h with
  | now => exact ha
  | getGlobalSymbol other _ ih =>
    obtain ⟨p, hp, hsym, hname⟩ := ih
    exact ⟨p, GetGlobalSymbol_table_grows E other _ p hp, hsym, hname⟩
  | other _ htable _ ih =>
    obtain ⟨p, hp, hsym, hname⟩ := ih
    exact ⟨p, by rw [htable]; exact hp, hsym, hname⟩

theorem GetGlobalSymbol_same_iff_of_associated (E : Engine)
    (hsymm : ∀ x y, E.strict_equal x y = true → E.strict_equal y x = true)
    (htrans : ∀ x y z, E.strict_equal x y = true → E.strict_equal y z = true →
      E.strict_equal x z = true)
    (iso : JerryIsolate) (hok : SymbolTableOk E iso) (a symbol : jerry_value_t)
    (ha : Associated E iso a symbol) (b : JerryValue) :
    symbol = (GetGlobalSymbol E b iso).1 ↔ E.strict_equal a b.value = true := by
  obtain ⟨hpair, hnodup, hbound⟩ := hok
  obtain ⟨p, hp, hsym, hname⟩ := ha
  have hpb : E.strict_equal a b.value = true → E.strict_equal p.1 b.value = true := by
    intro hab
    rcases hname with h | h
    · rw [h]; exact hab
    · exact htrans _ _ _ h hab
  cases hf : iso.m_global_symbols.find? (fun it => E.strict_equal it.1 b.value) with
  | some it =>
    rw [GetGlobalSymbol_hit E b iso it hf]
    have hit : it ∈ iso.m_global_symbols := List.mem_of_find?_eq_some hf
    have hitb : E.strict_equal it.1 b.value = true := by
      have h := List.find?_some hf
      exact h
    constructor
    · intro heq
      have hpit : p = it := List.inj_on_of_nodup_map hnodup hp hit (hsym.trans heq)
      rw [← hpit] at hitb
      rcases hname with h | h
      · rw [← h]; exact hitb
      · exact htrans _ _ _ (hsymm _ _ h) hitb
    · intro hab
      have hRsymm : Symmetric
          (fun p q : jerry_value_t × jerry_value_t => E.strict_equal p.1 q.1 = false) := by
        intro x y hxy
        cases hyx : E.strict_equal y.1 x.1 with
        | false => rfl
        | true => rw [hsymm _ _ hyx] at hxy; exact absurd hxy (by simp)
      by_cases hpit : p = it
      · rw [← hsym, hpit]
      · have hfalse := hpair.forall hRsymm hp hit hpit
        have htrue := htrans _ _ _ (hpb hab) (hsymm _ _ hitb)
        rw [htrue] at hfalse
        exact absurd hfalse (by simp)
  | none =>
    rw [GetGlobalSymbol_miss E b iso hf]
    have hmiss := List.find?_eq_none.mp hf
    constructor
    · intro heq
      have hlt := hbound p hp
      rw [hsym, heq] at hlt
      exact absurd hlt (Nat.lt_irrefl _)
    · intro hab
      exact absurd (hpb hab) (hmiss p hp)

/-- C7: in an isolate whose global symbol table started empty, take a call
`GetGlobalSymbol (a)` in any state reached so far and a call `GetGlobalSymbol (b)` in any
later state (after any number of further `GetGlobalSymbol` calls and other activity).  For an
engine whose strict equality is symmetric and transitive, the two returned wrappers hold the
same symbol if and only if `a` and `b` are strictly equal (in either order of the operands).
A call whose name is strictly equal to a name of the table leaves the table as it is, and a
call whose name is strictly equal to none appends exactly the pair of the name and the
returned symbol. -/
theorem GetGlobalSymbol_same_symbol_iff (E : Engine)
    (hsymm : ∀ x y, E.strict_equal x y = true → E.strict_equal y x = true)
    (htrans : ∀ x y z, E.strict_equal x y = true → E.strict_equal y z = true →
      E.strict_equal x z = true)
    (iso0 iso later : JerryIsolate) (a b : JerryValue)
    (h0 : iso0.m_global_symbols = []) (hreach : Later E iso0 iso)
    (hlater : Later E (GetGlobalSymbol E a iso).2 later) :
    ((GetGlobalSymbol E a iso).1 = (GetGlobalSymbol E b later).1 ↔
        E.strict_equal a.value b.value = true)
    ∧ ((GetGlobalSymbol E a iso).1 = (GetGlobalSymbol E b later).1 ↔
        E.strict_equal b.value a.value = true)
    ∧ ((∃ it ∈ iso.m_global_symbols, E.strict_equal it.1 a.value = true) →
        (GetGlobalSymbol E a iso).2.m_global_symbols = iso.m_global_symbols)
    ∧ ((∀ it ∈ iso.m_global_symbols, E.strict_equal it.1 a.value = false) →
        (GetGlobalSymbol E a iso).2.m_global_symbols =
          iso.m_global_symbols ++ [(a.value, (GetGlobalSymbol E a iso).1)]) := by
  have hok0 : SymbolTableOk E iso0 := by
    refine ⟨?_, ?_, ?_⟩ <;> simp [h0]
  have hok : SymbolTableOk E iso := Later_tableOk E iso0 iso hreach hok0
  have hokl : SymbolTableOk E later :=
    Later_tableOk E _ later hlater (GetGlobalSymbol_tableOk E a iso hok)
  have hassoc : Associated E later a.value (GetGlobalSymbol E a iso).1 :=
    Later_associated E _ later hlater _ _ (GetGlobalSymbol_associated E a iso)
  have hiff := GetGlobalSymbol_same_iff_of_associated E hsymm htrans later hokl _ _ hassoc b
  refine ⟨hiff, hiff.trans ⟨hsymm _ _, hsymm _ _⟩, ?_, ?_⟩
  · rintro ⟨it, hit, heq⟩
    cases hf : iso.m_global_symbols.find? (fun it => E.strict_equal it.1 a.value) with
    | some found => rw [GetGlobalSymbol_hit E a iso found hf]
    | none =>
      have hmiss := List.find?_eq_none.mp hf
      exact absurd heq (hmiss it hit)
  · intro hnone
    cases hf : iso.m_global_symbols.find? (fun it => E.strict_equal it.1 a.value) with
    | some found =>
      have hfound : E.strict_equal found.1 a.value = true := by
        have h := List.find?_some hf
        exact h
      rw [hnone found (List.mem_of_find?_eq_some hf)] at hfound
      exact absurd hfound (by simp)
    | none => rw [GetGlobalSymbol_miss E a iso hf]

/-- Witness for C7: in a fresh isolate the names 5, 6 and again 5 are looked up; the first and
the third call return the same symbol, the first and the second do not. -/
theorem GetGlobalSymbol_same_symbol_iff_witness :
    (GetGlobalSymbol Engine.sample ⟨100, 5⟩ JerryIsolate.initial).1 =
        (GetGlobalSymbol Engine.sample ⟨102, 5⟩
          (GetGlobalSymbol Engine.sample ⟨101, 6⟩
            (GetGlobalSymbol Engine.sample ⟨100, 5⟩ JerryIsolate.initial).2).2).1
    ∧ (GetGlobalSymbol Engine.sample ⟨100, 5⟩ JerryIsolate.initial).1 ≠
        (GetGlobalSymbol Engine.sample ⟨101, 6⟩
          (GetGlobalSymbol Engine.sample ⟨100, 5⟩ JerryIsolate.initial).2).1 := by
  have hsymm : ∀ x y, Engine.sample.strict_equal x y = true →
      Engine.sample.strict_equal y x = true := by
    intro x y h
    simp only [Engine.sample, beq_iff_eq] at h ⊢
    exact h.symm
  have htrans : ∀ x y z, Engine.sample.strict_equal x y = true →
      Engine.sample.strict_equal y z = true → Engine.sample.strict_equal x z = true := by
    intro x y z h1 h2
    simp only [Engine.sample, beq_iff_eq] at h1 h2 ⊢
    exact h1.trans h2
  constructor
  · exact (GetGlobalSymbol_same_symbol_iff Engine.sample hsymm htrans JerryIsolate.initial
      JerryIsolate.initial _ ⟨100, 5⟩ ⟨102, 5⟩ rfl (Later.now _)
      (Later.getGlobalSymbol ⟨101, 6⟩ (Later.now _))).1.mpr rfl
  · intro heq
    have h := (GetGlobalSymbol_same_symbol_iff Engine.sample hsymm htrans JerryIsolate.initial
      JerryIsolate.initial _ ⟨100, 5⟩ ⟨101, 6⟩ rfl (Later.now _) (Later.now _)).1.mp heq
    exact absurd h (by decide)

/-! ### Error channel -/

theorem callbacks_append (t u : List Effect) :
    callbacks (t ++ u) = callbacks t ++ callbacks u := by
  induction t with
  | nil => rfl
  | cons e t ih => cases e <;> simp [callbacks, ih]

theorem deletedValues_append (t u : List Effect) :
    deletedValues (t ++ u) = deletedValues t ++ deletedValues u := by
  induction t with
  | nil => rfl
  | cons e t ih => cases e <;> simp [deletedValues, ih]

theorem formatFrames_effects (E : Engine) (stack_trace : jerry_value_t) (count : Nat) :
    ∀ idx : Nat, callbacks (formatFrames E stack_trace idx count).2 = []
      ∧ deletedValues (formatFrames E stack_trace idx count).2 = [] := by
  induction count with
  | zero => intro idx; simp [formatFrames, callbacks, deletedValues]
  | succ count ih =>
    intro idx
    simp only [formatFrames, callbacks, deletedValues]
    exact ih (idx + 1)

theorem FormatError_effects (E : Engine) (stack : JerryValue) (error : jerry_value_t)
    (text : String) (effects : List Effect)
    (h : FormatError E stack error = .ok (text, effects)) :
    callbacks effects = [] ∧ deletedValues effects = [] := by
  unfold FormatError at h
  by_cases herr : E.value_is_error (E.get_property error stack.value) = true
  · simp [herr] at h
  · simp only [herr, Bool.false_eq_true, if_false, Except.ok.injEq, Prod.mk.injEq] at h
    obtain ⟨-, heff⟩ := h
    subst heff
    have hf := formatFrames_effects E (E.get_property error stack.value)
      (E.get_array_length (E.get_property error stack.value)) 0
    simp [callbacks, deletedValues, callbacks_append, deletedValues_append, hf.1, hf.2]

/-- C8: in every isolate state in which a try-catch frame is active, `TryReportError` returns
the isolate unchanged: the current error, the active try-catch reference and all other
members are as before, and the trace is as before, so the message callback was not invoked
and nothing was disposed. -/
theorem TryReportError_noop_while_try_catch_active (E : Engine) (iso : JerryIsolate)
    (h : iso.m_last_try_catch ≠ none) :
    TryReportError E iso = .ok iso
    ∧ ∀ s : JerryIsolate, TryReportError E iso = .ok s →
        s.m_current_error = iso.m_current_error
        ∧ s.m_last_try_catch = iso.m_last_try_catch
        ∧ callbacks s.trace = callbacks iso.trace
        ∧ s = iso := by
  have hrun : TryReportError E iso = .ok iso := by simp [TryReportError, h]
  refine ⟨hrun, ?_⟩
  intro s hs
  rw [hrun] at hs
  simp only [Except.ok.injEq] at hs
  subst hs
  exact ⟨rfl, rfl, rfl, rfl⟩

/-- Witness for C8: a try-catch frame (at address 77) is active, an error is pending and a
message callback is registered; `TryReportError` changes nothing. -/
theorem TryReportError_noop_while_try_catch_active_witness :
    TryReportError Engine.sample
        { JerryIsolate.initial with
          m_last_try_catch := some 77, m_current_error := some ⟨30, 3⟩,
          m_messageCallback := some 9 }
      = .ok { JerryIsolate.initial with
          m_last_try_catch := some 77, m_current_error := some ⟨30, 3⟩,
          m_messageCallback := some 9 } :=
  (TryReportError_noop_while_try_catch_active Engine.sample _ (by decide)).1

/-- C9, as stated, fails: in the freshly initialised isolate no try-catch frame is active and
no error is pending, and `TryReportError` dereferences the `NULL` current error instead of
returning; with a pending error but no registered message callback the error is cleared and
nothing is forwarded; and with a pending error whose "stack" property cannot be read the
assertion of `FormatError` stops the call. -/
theorem TryReportError_unconditional_counterexample :
    JerryIsolate.initial.m_last_try_catch = none
    ∧ TryReportError Engine.sample JerryIsolate.initial = .error Fault.nullDereference
    ∧ TryReportError Engine.sample { JerryIsolate.initial with m_current_error := some ⟨30, 3⟩ }
      = .ok { JerryIsolate.initial with
          trace :=
            [Effect.acquire 3, Effect.deleteValue ⟨30, 3⟩, Effect.release 3, Effect.release 11,
              Effect.release 12, Effect.release 10,
              Effect.setStackProperty 3 "E\n# 0: f\n# 1: g\n", Effect.release 20,
              Effect.release 3] }
    ∧ TryReportError Engine.sample { JerryIsolate.initial with m_current_error := some ⟨30, 4⟩ }
      = .error Fault.assertion := by
  exact ⟨rfl, rfl, rfl, rfl⟩

/-- C9 (amended): in every isolate state in which no try-catch frame is active, an error is
pending and reading the "stack" property of that error does not yield an error value,
`TryReportError` returns normally with the current error cleared (`HasError ()` is false
afterwards), having disposed the pending wrapper once and changed no other member; when a
message callback is registered it was invoked exactly once more, with the value of that
error, and when none is registered no callback was invoked. -/
theorem TryReportError_clears_and_reports (E : Engine) (iso : JerryIsolate) (err : JerryValue)
    (hcatch : iso.m_last_try_catch = none) (herr : iso.m_current_error = some err)
    (hstack : E.value_is_error (E.get_property err.value iso.m_magic_string_stack.value)
      = false) :
    ∃ s : JerryIsolate,
      TryReportError E iso = .ok s
      ∧ HasError s = false
      ∧ s.m_current_error = none
      ∧ deletedValues s.trace = deletedValues iso.trace ++ [err]
      ∧ (∀ cb : Nat, iso.m_messageCallback = some cb →
          callbacks s.trace = callbacks iso.trace ++ [(cb, err.value)])
      ∧ (iso.m_messageCallback = none → callbacks s.trace = callbacks iso.trace)
      ∧ { s with m_current_error := iso.m_current_error, trace := iso.trace } = iso := by
  cases hfmt : FormatError E iso.m_magic_string_stack err.value with
  | error e =>
    unfold FormatError at hfmt
    simp [hstack] at hfmt
  | ok result =>
    obtain ⟨text, effects⟩ := result
    obtain ⟨hcb, hdel⟩ := FormatError_effects E _ _ text effects hfmt
    cases hm : iso.m_messageCallback with
    | none =>
      have hrun : TryReportError E iso =
          .ok { iso with
            m_current_error := none
            trace := iso.trace ++ [Effect.acquire err.value, Effect.deleteValue err] ++ effects ++
              [Effect.setStackProperty err.value text, Effect.release (E.create_string text)] ++
              [Effect.release err.value] } := by
        simp [TryReportError, hcatch, GetRawError, herr, ClearError, UpdateErrorStackProp, hfmt,
          ReportMessage, hm]
      refine ⟨_, hrun, rfl, rfl, ?_, ?_, ?_, ?_⟩
      · simp [deletedValues_append, deletedValues, hdel]
      · intro cb hcb2
        simp at hcb2
      · intro _
        simp [callbacks_append, callbacks, hcb]
      · cases iso
        simp_all
    | some cb =>
      have hrun : TryReportError E iso =
          .ok { iso with
            m_current_error := none
            trace := iso.trace ++ [Effect.acquire err.value, Effect.deleteValue err] ++ effects ++
              [Effect.setStackProperty err.value text, Effect.release (E.create_string text)] ++
              [Effect.messageCallback cb err.value] ++ [Effect.release err.value] } := by
        simp [TryReportError, hcatch, GetRawError, herr, ClearError, UpdateErrorStackProp, hfmt,
          ReportMessage, hm]
      refine ⟨_, hrun, rfl, rfl, ?_, ?_, ?_, ?_⟩
      · simp [deletedValues_append, deletedValues, hdel]
      · intro cb2 hcb2
        simp only [Option.some.injEq] at hcb2
        subst hcb2
        simp [callbacks_append, callbacks, hcb]
      · intro hnone
        simp at hnone
      · cases iso
        simp_all

/-- Witness for C9 (amended): no try-catch frame is active, the error wrapper at address 30
holding the object 3 is pending and the callback 9 is registered; the error is cleared and
the callback receives the value 3. -/
theorem TryReportError_clears_and_reports_witness :
    ∃ s : JerryIsolate,
      TryReportError Engine.sample
          { JerryIsolate.initial with
            m_current_error := some ⟨30, 3⟩, m_messageCallback := some 9 } = .ok s
      ∧ HasError s = false
      ∧ callbacks s.trace = [(9, 3)] := by
  obtain ⟨s, hrun, hno, -, -, hcb, -, -⟩ := TryReportError_clears_and_reports Engine.sample
    { JerryIsolate.initial with m_current_error := some ⟨30, 3⟩, m_messageCallback := some 9 }
    ⟨30, 3⟩ rfl rfl rfl
  exact ⟨s, hrun, hno, hcb 9 rfl⟩

/-- C10: in every isolate state, `TakeError` returns exactly the wrapper that was the current
error before the call (`NULL` when there was none) and changes nothing but the slot, which
it empties: nothing is disposed (the trace is as before), `HasError ()` is false afterwards,
and a second `TakeError` returns `NULL`. -/
theorem TakeError_returns_current_and_empties (iso : JerryIsolate) :
    (TakeError iso).1 = iso.m_current_error
    ∧ (TakeError iso).2 = { iso with m_current_error := none }
    ∧ (TakeError iso).2.trace = iso.trace
    ∧ deletedValues (TakeError iso).2.trace = deletedValues iso.trace
    ∧ HasError (TakeError iso).2 = false
    ∧ (TakeError (TakeError iso).2).1 = none
    ∧ (HasError iso = true ↔ (TakeError iso).1 ≠ none) := by
  refine ⟨rfl, rfl, rfl, rfl, rfl, rfl, ?_⟩
  simp [HasError, TakeError, Option.isSome_iff_ne_none]

/-! ### Replacing the current error -/

theorem ClearError_deletedValues (r : Option JerryValue) (iso : JerryIsolate) :
    deletedValues (ClearError r iso).trace =
      deletedValues iso.trace ++ iso.m_current_error.toList := by
  cases h : iso.m_current_error with
  | none => simp [ClearError, h]
  | some current => simp [ClearError, h, deletedValues_append, deletedValues]

theorem ClearError_slotLive (r : Option JerryValue) (iso : JerryIsolate)
    (hr : ∀ w : JerryValue, r = some w →
      ¬ disposed w.addr iso.trace ∧
        ∀ current : JerryValue, iso.m_current_error = some current → current.addr ≠ w.addr) :
    SlotLive (ClearError r iso) := by
  intro w hw hdisposed
  have hslot : (ClearError r iso).m_current_error = r := by
    unfold ClearError
    cases iso.m_current_error <;> rfl
  rw [hslot] at hw
  obtain ⟨hlive, hother⟩ := hr w hw
  unfold disposed at hdisposed hlive
  rw [ClearError_deletedValues, List.map_append, List.mem_append] at hdisposed
  rcases hdisposed with hold | hnew
  · exact hlive hold
  · cases hc : iso.m_current_error with
    | none => simp [hc] at hnew
    | some current =>
      simp only [hc, Option.toList_some, List.map_cons, List.map_nil, List.mem_singleton]
        at hnew
      exact hother current hc hnew.symm

/-- C11, as stated, fails: when the replacement is the wrapper that is the current error,
`ClearError` disposes it and installs it again, so the slot then holds a wrapper that was
already disposed. -/
theorem ClearError_self_replacement_counterexample :
    SlotLive { JerryIsolate.initial with m_current_error := some ⟨30, 3⟩ }
    ∧ ¬ disposed 30
        ({ JerryIsolate.initial with m_current_error := some ⟨30, 3⟩ } : JerryIsolate).trace
    ∧ (ClearError (some ⟨30, 3⟩)
        { JerryIsolate.initial with m_current_error := some ⟨30, 3⟩ }).m_current_error
        = some ⟨30, 3⟩
    ∧ (ClearError (some ⟨30, 3⟩)
        { JerryIsolate.initial with m_current_error := some ⟨30, 3⟩ }).trace
        = [Effect.deleteValue ⟨30, 3⟩]
    ∧ ¬ SlotLive
        (ClearError (some ⟨30, 3⟩) { JerryIsolate.initial with m_current_error := some ⟨30, 3⟩ }) := by
  refine ⟨?_, ?_, rfl, rfl, ?_⟩
  · intro w _ hd
    simp [disposed, JerryIsolate.initial, deletedValues] at hd
  · simp [disposed, JerryIsolate.initial, deletedValues]
  · intro hlive
    exact hlive ⟨30, 3⟩ rfl (by simp [disposed, ClearError, JerryIsolate.initial, deletedValues])

/-- C11 (amended): for every isolate state and every replacement `r` (possibly `NULL`),
`ClearError (r)` disposes the previously current error exactly once if there was one (and
disposes nothing else), installs `r` as the current error and changes no other member, so
that `HasError ()` holds afterwards if and only if `r` is not `NULL`.  The wrapper held in
the slot afterwards was not disposed provided `r` was not disposed before and is not the
wrapper that was the current error.  `SetError` on an error value behaves as `ClearError`
applied to a newly created wrapper of the unwrapped error, and that wrapper is live in the
slot when no address beyond the allocated ones is in use. -/
theorem ClearError_replaces_current (E : Engine) (r : Option JerryValue) (iso : JerryIsolate) :
    (ClearError r iso).m_current_error = r
    ∧ (HasError (ClearError r iso) = true ↔ r ≠ none)
    ∧ deletedValues (ClearError r iso).trace =
        deletedValues iso.trace ++ iso.m_current_error.toList
    ∧ { ClearError r iso with m_current_error := iso.m_current_error, trace := iso.trace } = iso
    ∧ ((∀ w : JerryValue, r = some w →
          ¬ disposed w.addr iso.trace ∧
            ∀ current : JerryValue, iso.m_current_error = some current →
              current.addr ≠ w.addr) →
        SlotLive (ClearError r iso))
    ∧ (∀ error_value : jerry_value_t, E.value_is_error error_value = true →
        SetError E error_value iso =
          .ok (ClearError
            (some { addr := iso.heap_allocated + 1,
                    m_value := E.get_value_from_error error_value })
            { iso with heap_allocated := iso.heap_allocated + 1 }))
    ∧ (∀ (error_value : jerry_value_t) (s : JerryIsolate),
        SetError E error_value iso = .ok s →
        (∀ a : Nat, disposed a iso.trace → a ≤ iso.heap_allocated) →
        (∀ current : JerryValue, iso.m_current_error = some current →
          current.addr ≤ iso.heap_allocated) →
        SlotLive s ∧ HasError s = true) := by
  have hslot : (ClearError r iso).m_current_error = r := by
    unfold ClearError
    cases iso.m_current_error <;> rfl
  refine ⟨hslot, ?_, ClearError_deletedValues r iso, ?_, ClearError_slotLive r iso, ?_, ?_⟩
  · simp [HasError, hslot, Option.isSome_iff_ne_none]
  · cases iso with
    | mk =>
      simp only [ClearError]
      split <;> simp_all
  · intro error_value herr
    simp [SetError, herr, newJerryValue]
  · intro error_value s hs halloc hcur
    by_cases herr : E.value_is_error error_value = true
    · simp only [SetError, herr, if_true, newJerryValue, Except.ok.injEq] at hs
      subst hs
      constructor
      · apply ClearError_slotLive
        intro w hw
        simp only [Option.some.injEq] at hw
        subst hw
        constructor
        · intro hd
          have := halloc _ hd
          simp at this
        · intro current hc heq
          have := hcur current hc
          simp only at heq
          omega
      · simp only [HasError, ClearError]
        split <;> rfl
    · simp [SetError, herr] at hs

/-- Witness for C11 (amended): the error wrapper at address 30 is pending and the live
wrapper at address 31 replaces it; the old wrapper is disposed and the slot holds a wrapper
that was not disposed. -/
theorem ClearError_replaces_current_witness :
    deletedValues
        (ClearError (some ⟨31, 5⟩)
          { JerryIsolate.initial with m_current_error := some ⟨30, 3⟩ }).trace = [⟨30, 3⟩]
    ∧ SlotLive
        (ClearError (some ⟨31, 5⟩) { JerryIsolate.initial with m_current_error := some ⟨30, 3⟩ }) := by
  have h := ClearError_replaces_current Engine.sample (some ⟨31, 5⟩)
    { JerryIsolate.initial with m_current_error := some ⟨30, 3⟩ }
  refine ⟨h.2.2.1, h.2.2.2.2.1 ?_⟩
  intro w hw
  simp only [Option.some.injEq] at hw
  subst hw
  refine ⟨by simp [disposed, JerryIsolate.initial, deletedValues], ?_⟩
  intro current hc
  simp only [Option.some.injEq] at hc
  subst hc
  decide

/-! ### Microtask queue -/

theorem calledFunctions_append (t u : List Effect) :
    calledFunctions (t ++ u) = calledFunctions t ++ calledFunctions u := by
  induction t with
  | nil => rfl
  | cons e t ih => cases e <;> simp [calledFunctions, ih]

theorem runTasks_effects (E : Engine) (tasks : List JerryValue) :
    calledFunctions (runTasks E tasks) = tasks.map JerryValue.value
    ∧ deletedValues (runTasks E tasks) = tasks
    ∧ ∀ task ∈ tasks, Effect.release (E.call_function task.value) ∈ runTasks E tasks := by
  induction tasks with
  | nil => simp [runTasks, calledFunctions, deletedValues]
  | cons task rest ih =>
    obtain ⟨h1, h2, h3⟩ := ih
    refine ⟨by simp [runTasks, calledFunctions, h1], by simp [runTasks, deletedValues, h2], ?_⟩
    intro t ht
    simp only [List.mem_cons] at ht
    rcases ht with ht | ht
    · subst ht
      simp [runTasks]
    · have := h3 t ht
      simp [runTasks, this]

theorem drainJobs_effects (E : Engine) (fuel : Nat) :
    ∀ (n : Nat) (effects : List Effect), drainJobs E fuel n = some effects →
      calledFunctions effects = [] ∧ deletedValues effects = [] := by
  induction fuel with
  | zero => intro n effects h; simp [drainJobs] at h
  | succ fuel ih =>
    intro n effects h
    simp only [drainJobs] at h
    by_cases hu : E.value_is_undefined (E.run_all_enqueued_jobs n) = true
    · simp only [hu, if_true, Option.some.injEq] at h
      subst h
      simp [calledFunctions, deletedValues]
    · simp only [hu, Bool.false_eq_true, if_false] at h
      cases hrest : drainJobs E fuel (n + 1) with
      | none => simp [hrest] at h
      | some rest =>
        simp only [hrest, Option.some.injEq] at h
        subst h
        obtain ⟨h1, h2⟩ := ih (n + 1) rest hrest
        simp [calledFunctions, deletedValues, h1, h2]

theorem drainJobs_returns (E : Engine) (d : Nat) :
    ∀ (fuel n : Nat), d < fuel →
      E.value_is_undefined (E.run_all_enqueued_jobs (n + d)) = true →
      ∃ effects, drainJobs E fuel n = some effects := by
  induction d with
  | zero =>
    intro fuel n hf hu
    obtain ⟨fuel, rfl⟩ : ∃ k, fuel = k + 1 := ⟨fuel - 1, by omega⟩
    simp only [Nat.add_zero] at hu
    exact ⟨[Effect.runAllEnqueuedJobs, Effect.release (E.run_all_enqueued_jobs n)],
      by simp [drainJobs, hu]⟩
  | succ d ih =>
    intro fuel n hf hu
    obtain ⟨fuel, rfl⟩ : ∃ k, fuel = k + 1 := ⟨fuel - 1, by omega⟩
    by_cases hnow : E.value_is_undefined (E.run_all_enqueued_jobs n) = true
    · exact ⟨[Effect.runAllEnqueuedJobs, Effect.release (E.run_all_enqueued_jobs n)],
        by simp [drainJobs, hnow]⟩
    · obtain ⟨rest, hrest⟩ := ih fuel (n + 1) (by omega)
        (by rw [show n + 1 + d = n + (d + 1) by omega]; exact hu)
      exact ⟨Effect.runAllEnqueuedJobs :: Effect.release (E.run_all_enqueued_jobs n) :: rest,
        by simp [drainJobs, hnow, hrest]⟩

theorem EnqueueMicrotask_queue (func : JerryValue) (iso : JerryIsolate) :
    (EnqueueMicrotask func iso).m_micro_tasks =
        iso.m_micro_tasks ++ [{ addr := iso.heap_allocated + 1, m_value := func.value }]
    ∧ (EnqueueMicrotask func iso).heap_allocated = iso.heap_allocated + 1
    ∧ calledFunctions (EnqueueMicrotask func iso).trace = calledFunctions iso.trace
    ∧ deletedValues (EnqueueMicrotask func iso).trace = deletedValues iso.trace := by
  simp [EnqueueMicrotask, JerryValue.Copy, newJerryValue, calledFunctions_append,
    deletedValues_append, calledFunctions, deletedValues]

theorem enqueueAll_queue (funcs : List JerryValue) :
    ∀ iso : JerryIsolate,
      (∀ w ∈ iso.m_micro_tasks, w.addr ≤ iso.heap_allocated) →
      (iso.m_micro_tasks.map JerryValue.addr).Nodup →
      (∀ w ∈ (enqueueAll funcs iso).m_micro_tasks, w.addr ≤ (enqueueAll funcs iso).heap_allocated)
      ∧ ((enqueueAll funcs iso).m_micro_tasks.map JerryValue.addr).Nodup
      ∧ (enqueueAll funcs iso).m_micro_tasks.map JerryValue.value =
          iso.m_micro_tasks.map JerryValue.value ++ funcs.map JerryValue.value
      ∧ calledFunctions (enqueueAll funcs iso).trace = calledFunctions iso.trace
      ∧ deletedValues (enqueueAll funcs iso).trace = deletedValues iso.trace := by
  induction funcs with
  | nil => intro iso h1 h2; exact ⟨h1, h2, by simp [enqueueAll], rfl, rfl⟩
  | cons func rest ih =>
    intro iso h1 h2
    obtain ⟨hq, hh, hc, hd⟩ := EnqueueMicrotask_queue func iso
    have hb : ∀ w ∈ (EnqueueMicrotask func iso).m_micro_tasks,
        w.addr ≤ (EnqueueMicrotask func iso).heap_allocated := by
      intro w hw
      rw [hq] at hw
      rw [hh]
      simp only [List.mem_append, List.mem_singleton] at hw
      rcases hw with hw | hw
      · exact Nat.le_succ_of_le (h1 w hw)
      · subst hw
        exact Nat.le_refl _
    have hn : ((EnqueueMicrotask func iso).m_micro_tasks.map JerryValue.addr).Nodup := by
      rw [hq, List.map_append, List.nodup_append]
      refine ⟨h2, by simp, ?_⟩
      intro a ha ha2
      simp only [List.map_cons, List.map_nil, List.mem_singleton] at ha2
      obtain ⟨w, hw, hwa⟩ := List.mem_map.mp ha
      have := h1 w hw
      omega
    obtain ⟨i1, i2, i3, i4, i5⟩ := ih (EnqueueMicrotask func iso) hb hn
    simp only [enqueueAll]
    refine ⟨i1, i2, ?_, i4.trans hc, i5.trans hd⟩
    rw [i3, hq]
    simp [JerryValue.value]

/-- C12: after `EnqueueMicrotask` calls for the callables `funcs` on an isolate with an empty
queue, `RunMicrotasks` returns normally as soon as the budget of its second loop covers the
first call of `jerry_run_all_enqueued_jobs` that returns `undefined`.  Whatever the calls
return (error values included), the functions called are exactly the queued callables, each
once and in enqueue order; the wrappers disposed are exactly the queued wrappers, in order,
and these are pairwise different, so each is disposed exactly once; the result of every call
is released; and the explicit queue is empty afterwards. -/
theorem RunMicrotasks_runs_each_once (E : Engine) (funcs : List JerryValue) (iso : JerryIsolate)
    (fuel n : Nat) (hempty : iso.m_micro_tasks = [])
    (hjobs : E.value_is_undefined (E.run_all_enqueued_jobs n) = true) (hfuel : n < fuel) :
    ∃ s : JerryIsolate,
      RunMicrotasks E fuel (enqueueAll funcs iso) = .ok s
      ∧ s.m_micro_tasks = []
      ∧ calledFunctions s.trace = calledFunctions iso.trace ++ funcs.map JerryValue.value
      ∧ (enqueueAll funcs iso).m_micro_tasks.map JerryValue.value = funcs.map JerryValue.value
      ∧ deletedValues s.trace = deletedValues iso.trace ++ (enqueueAll funcs iso).m_micro_tasks
      ∧ ((enqueueAll funcs iso).m_micro_tasks.map JerryValue.addr).Nodup
      ∧ (∀ task ∈ (enqueueAll funcs iso).m_micro_tasks,
          (deletedValues s.trace).count task = (deletedValues iso.trace).count task + 1)
      ∧ ∀ task ∈ (enqueueAll funcs iso).m_micro_tasks,
          Effect.release (E.call_function task.value) ∈ s.trace := by
  obtain ⟨-, hnodup, hvalues, hcalled, hdeleted⟩ := enqueueAll_queue funcs iso
    (by simp [hempty]) (by simp [hempty])
  obtain ⟨effects, hdrain⟩ := drainJobs_returns E n fuel 0 hfuel (by simpa using hjobs)
  obtain ⟨hd1, hd2⟩ := drainJobs_effects E fuel 0 effects hdrain
  obtain ⟨ht1, ht2, ht3⟩ := runTasks_effects E (enqueueAll funcs iso).m_micro_tasks
  have hnodup2 : (enqueueAll funcs iso).m_micro_tasks.Nodup := List.Nodup.of_map _ hnodup
  have hdel : deletedValues
      ((enqueueAll funcs iso).trace ++ runTasks E (enqueueAll funcs iso).m_micro_tasks ++ effects)
      = deletedValues iso.trace ++ (enqueueAll funcs iso).m_micro_tasks := by
    simp [deletedValues_append, hdeleted, ht2, hd2]
  have hrun : RunMicrotasks E fuel (enqueueAll funcs iso) =
      .ok { enqueueAll funcs iso with
        m_micro_tasks := []
        trace := (enqueueAll funcs iso).trace ++
          runTasks E (enqueueAll funcs iso).m_micro_tasks ++ effects } := by
    simp [RunMicrotasks, hdrain]
  refine ⟨_, hrun, rfl, ?_, ?_, hdel, hnodup, ?_, ?_⟩
  · simp [calledFunctions_append, hcalled, ht1, hd1, hvalues, hempty]
  · simpa [hempty] using hvalues
  · intro task htask
    simp only [hdel, List.count_append]
    rw [List.count_eq_one_of_mem hnodup2 htask]
  · intro task htask
    have := ht3 task htask
    simp [this]

/-- Witness for C12: the callables 7 (whose call throws) and 9 are enqueued in a fresh
isolate; both are called, in this order, and the queue is empty afterwards. -/
theorem RunMicrotasks_runs_each_once_witness :
    ∃ s : JerryIsolate,
      RunMicrotasks Engine.sample 2 (enqueueAll [⟨50, 7⟩, ⟨51, 9⟩] JerryIsolate.initial) = .ok s
      ∧ s.m_micro_tasks = []
      ∧ calledFunctions s.trace = [7, 9] := by
  obtain ⟨s, hrun, hq, hcalled, -⟩ := RunMicrotasks_runs_each_once Engine.sample
    [⟨50, 7⟩, ⟨51, 9⟩] JerryIsolate.initial 2 1 rfl rfl (by decide)
  exact ⟨s, hrun, hq, hcalled⟩

/-- C14: for every template registry without duplicates and every handle, `AddTemplate`
leaves the isolate unchanged if the handle is registered already and otherwise appends the
handle at the end of the registry (changing nothing else).  Hence the registry still has
no duplicates, the earlier registrations are kept as a prefix in their order, and a second
`AddTemplate` of the same handle changes nothing. -/
theorem AddTemplate_set_semantics (handle : JerryHandle) (iso : JerryIsolate)
    (hnodup : iso.m_templates.Nodup) :
    (handle ∈ iso.m_templates → AddTemplate handle iso = iso)
    ∧ (handle ∉ iso.m_templates →
        AddTemplate handle iso = { iso with m_templates := iso.m_templates ++ [handle] })
    ∧ (AddTemplate handle iso).m_templates.Nodup
    ∧ iso.m_templates <+: (AddTemplate handle iso).m_templates
    ∧ handle ∈ (AddTemplate handle iso).m_templates
    ∧ (AddTemplate handle iso).m_templates.count handle = 1
    ∧ AddTemplate handle (AddTemplate handle iso) = AddTemplate handle iso := by
  by_cases hmem : handle ∈ iso.m_templates
  · have hsame : AddTemplate handle iso = iso := by simp [AddTemplate, hmem]
    refine ⟨fun _ => hsame, fun h => absurd hmem h, ?_, ?_, ?_, ?_, ?_⟩
    · rw [hsame]; exact hnodup
    · rw [hsame]
    · rw [hsame]; exact hmem
    · rw [hsame]; exact List.count_eq_one_of_mem hnodup hmem
    · rw [hsame, hsame]
  · have hnew : AddTemplate handle iso =
        { iso with m_templates := iso.m_templates ++ [handle] } := by
      simp [AddTemplate, hmem]
    have hnodup2 : (iso.m_templates ++ [handle]).Nodup := by
      rw [List.nodup_append]
      refine ⟨hnodup, by simp, ?_⟩
      intro a ha ha2
      simp only [List.mem_singleton] at ha2
      subst ha2
      exact hmem ha
    refine ⟨fun h => absurd h hmem, fun _ => hnew, ?_, ?_, ?_, ?_, ?_⟩
    · rw [hnew]; exact hnodup2
    · rw [hnew]; exact List.prefix_append _ _
    · rw [hnew]; simp
    · rw [hnew]; exact List.count_eq_one_of_mem hnodup2 (by simp)
    · rw [hnew]; simp [AddTemplate]

/-- Witness for C14: the registry holds the templates 5 and 6; registering 6 again changes
nothing, registering 7 appends it. -/
theorem AddTemplate_set_semantics_witness :
    AddTemplate 6 { JerryIsolate.initial with m_templates := [5, 6] }
      = { JerryIsolate.initial with m_templates := [5, 6] }
    ∧ AddTemplate 7 { JerryIsolate.initial with m_templates := [5, 6] }
      = { JerryIsolate.initial with m_templates := [5, 6, 7] } :=
  ⟨(AddTemplate_set_semantics 6 { JerryIsolate.initial with m_templates := [5, 6] }
      (by decide)).1 (by decide),
    (AddTemplate_set_semantics 7 { JerryIsolate.initial with m_templates := [5, 6] }
      (by decide)).2.1 (by decide)⟩

/-! ### Disposal -/

theorem disposeTemplates_of_templates (typeOf : JerryHandle → HandleType)
    (l : List JerryHandle)
    (hkind : ∀ x ∈ l, typeOf x = HandleType.FunctionTemplate ∨
      typeOf x = HandleType.ObjectTemplate) :
    disposeTemplates typeOf l = l.map Effect.deleteTemplate := by
  induction l with
  | nil => rfl
  | cons x rest ih =>
    have hrest := ih (fun y hy => hkind y (List.mem_cons_of_mem _ hy))
    rcases hkind x (List.mem_cons_self _ _) with hx | hx <;>
      simp [disposeTemplates, hx, hrest]

theorem disposeSymbols_mem (l : List (jerry_value_t × jerry_value_t)) :
    (∀ it ∈ l, Effect.release it.1 ∈ disposeSymbols l ∧ Effect.release it.2 ∈ disposeSymbols l)
    ∧ ∀ e ∈ disposeSymbols l, ∃ v, e = Effect.release v := by
  induction l with
  | nil => simp [disposeSymbols]
  | cons it rest ih =>
    obtain ⟨h1, h2⟩ := ih
    constructor
    · intro x hx
      simp only [List.mem_cons] at hx
      rcases hx with hx | hx
      · subst hx
        simp [disposeSymbols]
      · have := h1 x hx
        simp [disposeSymbols, this.1, this.2]
    · intro e he
      simp only [disposeSymbols, List.mem_cons] at he
      rcases he with he | he | he
      · exact ⟨_, he⟩
      · exact ⟨_, he⟩
      · exact h2 e he

/-- The releases `Dispose` performs between the loop over the templates and the engine
teardown, for an isolate whose six root cells hold the given wrappers. -/
theorem Dispose_trace (typeOf : JerryHandle → HandleType) (K : Internals) (iso : JerryIsolate)
    (undefined hole null true_ false_ empty : JerryValue)
    (hkind : ∀ x ∈ iso.m_templates, typeOf x = HandleType.FunctionTemplate ∨
      typeOf x = HandleType.ObjectTemplate)
    (hu : iso.m_slot[K.root_offset + K.kUndefinedValueRootIndex]? =
      some (SlotCell.value undefined))
    (hh : iso.m_slot[K.root_offset + K.kTheHoleValueRootIndex]? = some (SlotCell.value hole))
    (hn : iso.m_slot[K.root_offset + K.kNullValueRootIndex]? = some (SlotCell.value null))
    (ht : iso.m_slot[K.root_offset + K.kTrueValueRootIndex]? = some (SlotCell.value true_))
    (hf : iso.m_slot[K.root_offset + K.kFalseValueRootIndex]? = some (SlotCell.value false_))
    (he : iso.m_slot[K.root_offset + K.kEmptyStringRootIndex]? = some (SlotCell.value empty)) :
    Dispose typeOf K iso =
      .ok (iso.trace ++ iso.m_templates.reverse.map Effect.deleteTemplate ++
        (iso.m_eternals.map Effect.deleteValue ++ disposeSymbols iso.m_global_symbols ++
          [Effect.deleteValue iso.m_magic_string_stack] ++
          iso.m_current_error.toList.map Effect.deleteValue ++
          [iso.m_fn_set_add.destroy, iso.m_fn_map_set.destroy, iso.m_fn_object_assign.destroy,
            iso.m_fn_conversion_failer.destroy, iso.m_fn_get_own_prop.destroy,
            iso.m_fn_get_own_names.destroy, iso.m_fn_set_integrity.destroy] ++
          [Effect.deleteValue undefined, Effect.deleteValue hole, Effect.deleteValue null,
            Effect.deleteValue true_, Effect.deleteValue false_, Effect.deleteValue empty] ++
          iso.m_hidden_object_template.toList.map Effect.deleteTemplate) ++
        [Effect.cleanup, Effect.freeContext, Effect.deleteIsolate]) := by
  have htpl := disposeTemplates_of_templates typeOf iso.m_templates.reverse
    (fun x hx => hkind x (List.mem_reverse.mp hx))
  cases hc : iso.m_current_error <;> cases hhid : iso.m_hidden_object_template <;>
    simp [Dispose, deleteSlot, hu, hh, hn, ht, hf, he, htpl, ClearError, hc, hhid, bind,
      Except.bind]

/-- C15, as stated, fails: when the hidden object template has been registered with
`AddTemplate`, `Dispose` destroys it in the loop over the registry and again after the
root-table singletons, twice in all. -/
theorem Dispose_hidden_template_counterexample :
    (HiddenObjectTemplate
        { JerryIsolate.initial with
          heap_allocated := 7
          m_slot := List.replicate 11 (SlotCell.raw 0) ++
            [SlotCell.value ⟨2, 2⟩, SlotCell.value ⟨3, 2⟩, SlotCell.value ⟨4, 4⟩,
              SlotCell.value ⟨5, 6⟩, SlotCell.value ⟨6, 8⟩, SlotCell.value ⟨7, 20⟩] }).1 = 8
    ∧ (AddTemplate 8 (HiddenObjectTemplate
        { JerryIsolate.initial with
          heap_allocated := 7
          m_slot := List.replicate 11 (SlotCell.raw 0) ++
            [SlotCell.value ⟨2, 2⟩, SlotCell.value ⟨3, 2⟩, SlotCell.value ⟨4, 4⟩,
              SlotCell.value ⟨5, 6⟩, SlotCell.value ⟨6, 8⟩, SlotCell.value ⟨7, 20⟩] }).2).m_templates
      = [8]
    ∧ (Dispose (fun _ => HandleType.ObjectTemplate) Internals.sample
        (AddTemplate 8 (HiddenObjectTemplate
          { JerryIsolate.initial with
            heap_allocated := 7
            m_slot := List.replicate 11 (SlotCell.raw 0) ++
              [SlotCell.value ⟨2, 2⟩, SlotCell.value ⟨3, 2⟩, SlotCell.value ⟨4, 4⟩,
                SlotCell.value ⟨5, 6⟩, SlotCell.value ⟨6, 8⟩, SlotCell.value ⟨7, 20⟩] }).2)).map
          (fun releases => releases.filter (fun e => e == Effect.deleteTemplate 8))
      = .ok [Effect.deleteTemplate 8, Effect.deleteTemplate 8] :=
  ⟨rfl, rfl, rfl⟩

/-- C15 (amended): for an isolate whose registered templates are function or object
templates, without duplicates, and whose six root cells hold wrappers, `Dispose` returns
normally and the sequence of releases it performs starts with the registered templates,
destroyed in reverse registration order (last registered first), each exactly once in this
part; a registered template that is not also the hidden object template is destroyed exactly
once in the whole sequence.
Then follow, before `jerry_cleanup`, the releases of every eternal, of both values of every
global-symbol pair, of the "stack" string, of the current error if there is one, of the
seven bootstrap helpers and of the six root-table singletons; `jerry_cleanup` occurs after all
of them and not before, followed only by freeing the engine context and the isolate. -/
theorem Dispose_templates_reversed_cleanup_last (typeOf : JerryHandle → HandleType)
    (K : Internals) (iso : JerryIsolate) (undefined hole null true_ false_ empty : JerryValue)
    (hkind : ∀ x ∈ iso.m_templates, typeOf x = HandleType.FunctionTemplate ∨
      typeOf x = HandleType.ObjectTemplate)
    (hnodup : iso.m_templates.Nodup)
    (hu : iso.m_slot[K.root_offset + K.kUndefinedValueRootIndex]? =
      some (SlotCell.value undefined))
    (hh : iso.m_slot[K.root_offset + K.kTheHoleValueRootIndex]? = some (SlotCell.value hole))
    (hn : iso.m_slot[K.root_offset + K.kNullValueRootIndex]? = some (SlotCell.value null))
    (ht : iso.m_slot[K.root_offset + K.kTrueValueRootIndex]? = some (SlotCell.value true_))
    (hf : iso.m_slot[K.root_offset + K.kFalseValueRootIndex]? = some (SlotCell.value false_))
    (he : iso.m_slot[K.root_offset + K.kEmptyStringRootIndex]? = some (SlotCell.value empty)) :
    ∃ rest : List Effect,
      Dispose typeOf K iso =
        .ok (iso.trace ++ iso.m_templates.reverse.map Effect.deleteTemplate ++ rest ++
          [Effect.cleanup, Effect.freeContext, Effect.deleteIsolate])
      ∧ (iso.m_templates.reverse.map Effect.deleteTemplate).Nodup
      ∧ (∀ x ∈ iso.m_templates,
          (iso.m_templates.reverse.map Effect.deleteTemplate).count (Effect.deleteTemplate x) = 1)
      ∧ (∀ x ∈ iso.m_templates, iso.m_hidden_object_template ≠ some x →
          (iso.m_templates.reverse.map Effect.deleteTemplate ++ rest).count
            (Effect.deleteTemplate x) = 1)
      ∧ Effect.cleanup ∉ iso.m_templates.reverse.map Effect.deleteTemplate ++ rest
      ∧ (∀ v ∈ iso.m_eternals, Effect.deleteValue v ∈ rest)
      ∧ (∀ it ∈ iso.m_global_symbols,
          Effect.release it.1 ∈ rest ∧ Effect.release it.2 ∈ rest)
      ∧ Effect.deleteValue iso.m_magic_string_stack ∈ rest
      ∧ (∀ current : JerryValue, iso.m_current_error = some current →
          Effect.deleteValue current ∈ rest)
      ∧ (∀ helper ∈ [iso.m_fn_set_add, iso.m_fn_map_set, iso.m_fn_object_assign,
            iso.m_fn_conversion_failer, iso.m_fn_get_own_prop, iso.m_fn_get_own_names,
            iso.m_fn_set_integrity], helper.destroy ∈ rest)
      ∧ ∀ v ∈ [undefined, hole, null, true_, false_, empty], Effect.deleteValue v ∈ rest := by
  have hinj : Function.Injective Effect.deleteTemplate := by
    intro a b hab
    injection hab
  have hnodup2 : (iso.m_templates.reverse.map Effect.deleteTemplate).Nodup :=
    (List.nodup_reverse.mpr hnodup).map hinj
  have hcount : ∀ x ∈ iso.m_templates,
      (iso.m_templates.reverse.map Effect.deleteTemplate).count (Effect.deleteTemplate x) = 1 :=
    fun x hx => List.count_eq_one_of_mem hnodup2
      (List.mem_map.mpr ⟨x, List.mem_reverse.mpr hx, rfl⟩)
  obtain ⟨hsym1, hsym2⟩ := disposeSymbols_mem iso.m_global_symbols
  have hnotsym : ∀ e, (∀ v, e ≠ Effect.release v) → e ∉ disposeSymbols iso.m_global_symbols := by
    intro e hne hmem
    obtain ⟨v, hv⟩ := hsym2 e hmem
    exact hne v hv
  refine ⟨_, Dispose_trace typeOf K iso undefined hole null true_ false_ empty hkind
    hu hh hn ht hf he, hnodup2, hcount, ?_, ?_, ?_, ?_, ?_, ?_, ?_, ?_⟩
  · intro x hx hhidden
    rw [List.count_append, hcount x hx]
    have hzero : List.count (Effect.deleteTemplate x)
        (iso.m_eternals.map Effect.deleteValue ++ disposeSymbols iso.m_global_symbols ++
          [Effect.deleteValue iso.m_magic_string_stack] ++
          iso.m_current_error.toList.map Effect.deleteValue ++
          [iso.m_fn_set_add.destroy, iso.m_fn_map_set.destroy, iso.m_fn_object_assign.destroy,
            iso.m_fn_conversion_failer.destroy, iso.m_fn_get_own_prop.destroy,
            iso.m_fn_get_own_names.destroy, iso.m_fn_set_integrity.destroy] ++
          [Effect.deleteValue undefined, Effect.deleteValue hole, Effect.deleteValue null,
            Effect.deleteValue true_, Effect.deleteValue false_, Effect.deleteValue empty] ++
          iso.m_hidden_object_template.toList.map Effect.deleteTemplate) = 0 := by
      rw [List.count_eq_zero]
      have h1 := hnotsym (Effect.deleteTemplate x) (by intro v; simp)
      cases hhid : iso.m_hidden_object_template with
      | none => simp [h1, JerryPolyfill.destroy]
      | some y =>
        have hxy : x ≠ y := by
          intro hxy
          exact hhidden (by rw [hhid, hxy])
        simp [h1, JerryPolyfill.destroy, hxy]
    rw [hzero]
  · have h1 := hnotsym Effect.cleanup (by intro v; simp)
    simp [h1, JerryPolyfill.destroy]
  · intro v hv
    simp [hv]
  · intro it hit
    have := hsym1 it hit
    simp [this.1, this.2]
  · simp
  · intro current hc
    simp [hc]
  · intro helper hhelper
    simp only [List.mem_cons, List.mem_singleton, List.not_mem_nil, or_false] at hhelper
    rcases hhelper with h | h | h | h | h | h | h <;> subst h <;> simp
  · intro v hv
    simp only [List.mem_cons, List.mem_singleton, List.not_mem_nil, or_false] at hv
    rcases hv with h | h | h | h | h | h <;> subst h <;> simp

/-- Witness for C15: the function template 60 and the object template 61 are registered in
this order, and the root cells 7 + 4 .. 7 + 9 of the sample layout hold six wrappers; the
releases of `Dispose` start with the template 61, then 60, and `jerry_cleanup` is not among
the releases before the final three steps. -/
theorem Dispose_templates_reversed_cleanup_last_witness :
    ∃ rest : List Effect,
      Dispose (fun h => if h = 60 then HandleType.FunctionTemplate else HandleType.ObjectTemplate)
          Internals.sample
          { JerryIsolate.initial with
            m_templates := [60, 61]
            m_slot := List.replicate 11 (SlotCell.raw 0) ++
              [SlotCell.value ⟨2, 2⟩, SlotCell.value ⟨3, 2⟩, SlotCell.value ⟨4, 4⟩,
                SlotCell.value ⟨5, 6⟩, SlotCell.value ⟨6, 8⟩, SlotCell.value ⟨7, 20⟩] }
        = .ok ([Effect.deleteTemplate 61, Effect.deleteTemplate 60] ++ rest ++
            [Effect.cleanup, Effect.freeContext, Effect.deleteIsolate])
      ∧ Effect.cleanup ∉ [Effect.deleteTemplate 61, Effect.deleteTemplate 60] ++ rest := by
  obtain ⟨rest, hrun, -, -, -, hclean, -⟩ := Dispose_templates_reversed_cleanup_last
    (fun h => if h = 60 then HandleType.FunctionTemplate else HandleType.ObjectTemplate)
    Internals.sample
    { JerryIsolate.initial with
      m_templates := [60, 61]
      m_slot := List.replicate 11 (SlotCell.raw 0) ++
        [SlotCell.value ⟨2, 2⟩, SlotCell.value ⟨3, 2⟩, SlotCell.value ⟨4, 4⟩,
          SlotCell.value ⟨5, 6⟩, SlotCell.value ⟨6, 8⟩, SlotCell.value ⟨7, 20⟩] }
    ⟨2, 2⟩ ⟨3, 2⟩ ⟨4, 4⟩ ⟨5, 6⟩ ⟨6, 8⟩ ⟨7, 20⟩ (by decide) (by decide) rfl rfl rfl rfl rfl rfl
  exact ⟨rest, hrun, hclean⟩

/-! ### Context stack -/

theorem runContextCalls_append (E : Engine) (cs ds : List ContextCall) :
    ∀ iso : JerryIsolate, runContextCalls E (cs ++ ds) iso =
      match runContextCalls E cs iso with
      | .error e => .error e
      | .ok iso1 => runContextCalls E ds iso1 := by
  induction cs with
  | nil => intro iso; rfl
  | cons c cs ih =>
    intro iso
    cases c with
    | push context => simp only [List.cons_append, runContextCalls]; exact ih _
    | pop =>
      simp only [List.cons_append, runContextCalls]
      cases PopContext E iso with
      | error e => rfl
      | ok iso1 => exact ih iso1

theorem PushContext_state (E : Engine) (context : JerryValue) (iso : JerryIsolate)
    (hc : E.is_realm context.value = true) :
    PushContext E context iso =
      { iso with
        m_contexts := iso.m_contexts ++ [(context, iso.engine_realm)]
        s_currentIsolate := true
        engine_realm := context.value
        trace := iso.trace ++ [Effect.setRealm context.value] } := by
  simp [PushContext, jerry_set_realm, hc]

theorem PopContext_state (E : Engine) (iso : JerryIsolate)
    (below : List (JerryValue × jerry_value_t)) (back : JerryValue × jerry_value_t)
    (h : iso.m_contexts = below ++ [back]) (hr : E.is_realm back.2 = true) :
    PopContext E iso =
      .ok { iso with
        m_contexts := below
        engine_realm := back.2
        trace := iso.trace ++ [Effect.setRealm back.2] } := by
  simp [PopContext, h, jerry_set_realm, hr]

theorem runContextCalls_balanced (E : Engine) (cs : List ContextCall)
    (hb : BalancedContexts E cs) :
    ∀ iso : JerryIsolate, E.is_realm iso.engine_realm = true →
      ∃ s : JerryIsolate, runContextCalls E cs iso = .ok s
        ∧ s.m_contexts = iso.m_contexts ∧ s.engine_realm = iso.engine_realm := by
  induction hb with
  | nil => intro iso _; exact ⟨iso, rfl, rfl, rfl⟩
  | scope context inner rest hc _ _ ihi ihr =>
    intro iso hr
    simp only [runContextCalls]
    rw [runContextCalls_append]
    obtain ⟨s1, hs1, hctx1, hrealm1⟩ := ihi (PushContext E context iso)
      (by rw [PushContext_state E context iso hc]; exact hc)
    rw [hs1]
    simp only [runContextCalls]
    rw [PushContext_state E context iso hc] at hctx1 hrealm1
    rw [PopContext_state E s1 iso.m_contexts (context, iso.engine_realm) hctx1 hr]
    simp only
    obtain ⟨s2, hs2, hctx2, hrealm2⟩ := ihr
      { s1 with
        m_contexts := iso.m_contexts
        engine_realm := iso.engine_realm
        trace := s1.trace ++ [Effect.setRealm iso.engine_realm] } hr
    exact ⟨s2, hs2, hctx2, hrealm2⟩

/-- C16: for every isolate state (whose active realm is a realm of the engine) and every
context wrapping a realm, `PushContext` makes the context the result of `CurrentContext ()`,
activates its realm and records, on top of the unchanged context stack, the realm that was
active before.  The matching `PopContext ()` (directly afterwards, or after any balanced
sequence of further pushes of realms and pops) returns normally, restores that realm as the
active realm of the engine and leaves the context stack exactly as it was before the push;
the direct pop changes nothing else but the trace and the current-isolate mark. -/
theorem PushContext_PopContext_restores (E : Engine) (context : JerryValue)
    (iso : JerryIsolate) (inner : List ContextCall)
    (hc : E.is_realm context.value = true) (hr : E.is_realm iso.engine_realm = true)
    (hinner : BalancedContexts E inner) :
    CurrentContext (PushContext E context iso) = .ok context
    ∧ (PushContext E context iso).m_contexts = iso.m_contexts ++ [(context, iso.engine_realm)]
    ∧ (PushContext E context iso).engine_realm = context.value
    ∧ PopContext E (PushContext E context iso) =
        .ok { iso with
          s_currentIsolate := true
          trace := iso.trace ++
            [Effect.setRealm context.value, Effect.setRealm iso.engine_realm] }
    ∧ ∃ s : JerryIsolate,
        runContextCalls E (ContextCall.push context :: (inner ++ [ContextCall.pop])) iso = .ok s
        ∧ s.m_contexts = iso.m_contexts ∧ s.engine_realm = iso.engine_realm := by
  have hpush := PushContext_state E context iso hc
  refine ⟨?_, by rw [hpush], by rw [hpush], ?_, ?_⟩
  · rw [hpush]
    simp [CurrentContext]
  · rw [PopContext_state E _ iso.m_contexts (context, iso.engine_realm) (by rw [hpush]) hr,
      hpush]
    simp
  · have hb : BalancedContexts E (ContextCall.push context :: (inner ++ ContextCall.pop :: [])) :=
      BalancedContexts.scope context inner [] hc hinner BalancedContexts.nil
    exact runContextCalls_balanced E _ hb iso hr

/-- Witness for C16: the realm 3 is active and the context wrapping the realm 5 is pushed and
popped again; the realm 3 is active afterwards and the context stack is empty as before. -/
theorem PushContext_PopContext_restores_witness :
    CurrentContext (PushContext Engine.sample ⟨80, 5⟩ JerryIsolate.initial) = .ok ⟨80, 5⟩
    ∧ PopContext Engine.sample (PushContext Engine.sample ⟨80, 5⟩ JerryIsolate.initial) =
        .ok { JerryIsolate.initial with
          trace := [Effect.setRealm 5, Effect.setRealm 3] } :=
  have h := PushContext_PopContext_restores Engine.sample ⟨80, 5⟩ JerryIsolate.initial []
    rfl rfl BalancedContexts.nil
  ⟨h.1, h.2.2.2.1⟩

theorem InitalizeSlots_frame (E : Engine) (K : Internals) (iso s : JerryIsolate)
    (h : InitalizeSlots E K iso = .ok s) :
    s = { iso with m_slot := s.m_slot, heap_allocated := iso.heap_allocated + 6 } := by
  simp only [InitalizeSlots, bind, Except.bind] at h
  repeat' split at h
  all_goals first
    | (simp only [Except.ok.injEq] at h; subst h; rfl)
    | simp at h

theorem InitializeJerryIsolate_contexts (E : Engine) (K : Internals) (iso s : JerryIsolate)
    (h : InitializeJerryIsolate E K iso = .ok s) :
    s.m_contexts = iso.m_contexts ∧ s.m_last_try_catch = none ∧ s.m_current_error = none := by
  simp only [InitializeJerryIsolate, bind, Except.bind] at h
  repeat' split at h
  all_goals first
    | (simp at h; done)
    | (simp only [Except.ok.injEq] at h
       subst h
       have hf := InitalizeSlots_frame E K _ _ ‹_›
       simp only [newJerryValue]
       rw [hf]
       refine ⟨?_, ?_, ?_⟩ <;> first | rfl | trivial)

theorem runContextCalls_count (E : Engine) (cs : List ContextCall) :
    ∀ iso s : JerryIsolate, runContextCalls E cs iso = .ok s →
      s.m_contexts.length + popCount cs = iso.m_contexts.length + pushCount cs := by
  induction cs with
  | nil =>
    intro iso s h
    simp only [runContextCalls, Except.ok.injEq] at h
    subst h
    rfl
  | cons c cs ih =>
    intro iso s h
    cases c with
    | push context =>
      simp only [runContextCalls] at h
      have := ih _ s h
      have hlen : (PushContext E context iso).m_contexts.length = iso.m_contexts.length + 1 := by
        by_cases hreal : E.is_realm context.value = true <;>
          simp [PushContext, jerry_set_realm, hreal]
      simp only [pushCount, popCount]
      omega
    | pop =>
      simp only [runContextCalls] at h
      cases hp : PopContext E iso with
      | error e => simp [hp] at h
      | ok iso1 =>
        simp only [hp] at h
        have := ih iso1 s h
        have hlen : iso1.m_contexts.length + 1 = iso.m_contexts.length := by
          unfold PopContext at hp
          cases hl : iso.m_contexts.getLast? with
          | none => simp [hl] at hp
          | some back =>
            have hne : iso.m_contexts ≠ [] := by
              intro hnil
              simp [hnil] at hl
            have hpos : 0 < iso.m_contexts.length := List.length_pos.mpr hne
            by_cases hreal : E.is_realm back.2 = true <;>
              simp only [hl, jerry_set_realm, hreal, if_true, Bool.false_eq_true, if_false,
                Except.ok.injEq] at hp <;>
              subst hp <;> simp <;> omega
        simp only [pushCount, popCount]
        omega

/-- C17, as stated, fails: the isolate constructed by `InitializeJerryIsolate` has an empty
context stack, so `CurrentContext ()` and `PopContext ()` are applied to an empty container
there; and after one `PushContext` the following `PopContext` removes the last remaining
entry and leaves the stack empty, where `CurrentContext ()` is undefined again. -/
theorem PopContext_empties_stack_counterexample :
    (InitializeJerryIsolate Engine.sample Internals.sample JerryIsolate.initial).map
        JerryIsolate.m_contexts = .ok []
    ∧ (InitializeJerryIsolate Engine.sample Internals.sample JerryIsolate.initial >>=
        CurrentContext) = .error Fault.emptyBack
    ∧ ((InitializeJerryIsolate Engine.sample Internals.sample JerryIsolate.initial >>=
        PopContext Engine.sample).map JerryIsolate.m_contexts) = .error Fault.emptyBack
    ∧ ((InitializeJerryIsolate Engine.sample Internals.sample JerryIsolate.initial >>=
        runContextCalls Engine.sample [ContextCall.push ⟨80, 5⟩, ContextCall.pop]).map
          JerryIsolate.m_contexts) = .ok []
    ∧ (InitializeJerryIsolate Engine.sample Internals.sample JerryIsolate.initial >>=
        runContextCalls Engine.sample [ContextCall.push ⟨80, 5⟩, ContextCall.pop] >>=
        CurrentContext) = .error Fault.emptyBack :=
  ⟨rfl, rfl, rfl, rfl, rfl⟩

/-- C17 (amended): the context stack of a constructed isolate is empty and no entry of it is
protected.  In every state reached from a constructed isolate by `PushContext` and
`PopContext` calls that ran without a fault, the stack holds as many entries as there were
pushes minus pops; `PopContext` removes exactly the top entry and keeps the entries below,
also when the top entry is the only one, and it is applied to an empty container when the
stack is empty; `CurrentContext ()` is defined exactly while the stack is not empty, that is
while more contexts were pushed than popped. -/
theorem PopContext_removes_top_only (E : Engine) (K : Internals)
    (allocated constructed s : JerryIsolate) (cs : List ContextCall)
    (h0 : allocated.m_contexts = [])
    (hinit : InitializeJerryIsolate E K allocated = .ok constructed)
    (hrun : runContextCalls E cs constructed = .ok s) :
    constructed.m_contexts = []
    ∧ s.m_contexts.length + popCount cs = pushCount cs
    ∧ ((∃ context, CurrentContext s = .ok context) ↔ s.m_contexts ≠ [])
    ∧ (s.m_contexts ≠ [] ↔ popCount cs < pushCount cs)
    ∧ (∀ (below : List (JerryValue × jerry_value_t)) (back : JerryValue × jerry_value_t),
        s.m_contexts = below ++ [back] →
        ∃ t : JerryIsolate, PopContext E s = .ok t ∧ t.m_contexts = below)
    ∧ (s.m_contexts = [] →
        PopContext E s = .error Fault.emptyBack ∧ CurrentContext s = .error Fault.emptyBack) := by
  have hc : constructed.m_contexts = [] := by
    rw [(InitializeJerryIsolate_contexts E K allocated constructed hinit).1, h0]
  have hcount := runContextCalls_count E cs constructed s hrun
  rw [hc] at hcount
  simp only [List.length_nil, Nat.zero_add] at hcount
  refine ⟨hc, hcount, ?_, ?_, ?_, ?_⟩
  · cases hl : s.m_contexts.getLast? with
    | none =>
      have hnil : s.m_contexts = [] := List.getLast?_eq_none_iff.mp hl
      simp [CurrentContext, hl, hnil]
    | some back =>
      have hne : s.m_contexts ≠ [] := by
        intro hnil
        simp [hnil] at hl
      simp [CurrentContext, hl, hne]
  · rw [← List.length_pos]
    omega
  · intro below back hs
    by_cases hreal : E.is_realm back.2 = true
    · exact ⟨_, PopContext_state E s below back hs hreal, rfl⟩
    · have hpop : PopContext E s =
          .ok { s with m_contexts := below, trace := s.trace ++ [Effect.setRealm back.2] } := by
        simp [PopContext, jerry_set_realm, hs, hreal]
      exact ⟨_, hpop, rfl⟩
  · intro hnil
    simp [PopContext, CurrentContext, hnil]

/-- Witness for C17 (amended): a constructed isolate, then a push, a pop and another push;
one entry is on the stack, two pushes and one pop were made. -/
theorem PopContext_removes_top_only_witness :
    ∃ constructed s : JerryIsolate,
      InitializeJerryIsolate Engine.sample Internals.sample JerryIsolate.initial = .ok constructed
      ∧ runContextCalls Engine.sample
          [ContextCall.push ⟨80, 5⟩, ContextCall.pop, ContextCall.push ⟨81, 7⟩] constructed
        = .ok s
      ∧ constructed.m_contexts = []
      ∧ s.m_contexts.length + 1 = 2 :=
  ⟨_, _, rfl, rfl,
    (PopContext_removes_top_only Engine.sample Internals.sample JerryIsolate.initial _ _
      [ContextCall.push ⟨80, 5⟩, ContextCall.pop, ContextCall.push ⟨81, 7⟩] rfl rfl rfl).1,
    (PopContext_removes_top_only Engine.sample Internals.sample JerryIsolate.initial _ _
      [ContextCall.push ⟨80, 5⟩, ContextCall.pop, ContextCall.push ⟨81, 7⟩] rfl rfl rfl).2.1⟩

/-! ### Root slot table -/

theorem TryReportError_slot (E : Engine) (iso s : JerryIsolate)
    (h : TryReportError E iso = .ok s) : s.m_slot = iso.m_slot := by
  by_cases hcatch : iso.m_last_try_catch = none
  · cases herr : iso.m_current_error with
    | none => simp [TryReportError, hcatch, GetRawError, herr] at h
    | some err =>
      cases hfmt : FormatError E iso.m_magic_string_stack err.value with
      | error e =>
        simp [TryReportError, hcatch, GetRawError, herr, ClearError, UpdateErrorStackProp,
          hfmt] at h
      | ok result =>
        cases hm : iso.m_messageCallback <;>
          simp [TryReportError, hcatch, GetRawError, herr, ClearError, UpdateErrorStackProp,
            hfmt, ReportMessage, hm] at h <;>
          subst h <;> rfl
  · simp only [TryReportError, ne_eq, hcatch, not_false_eq_true, if_true, Except.ok.injEq] at h
    subst h
    rfl

theorem SetEternal_slot (value : JerryValue) (index : Int) (iso : JerryIsolate)
    (result : Int × JerryIsolate) (h : SetEternal value index iso = .ok result) :
    result.2.m_slot = iso.m_slot := by
  unfold SetEternal at h
  split at h
  · simp only [Except.ok.injEq] at h
    subst h
    rfl
  · split at h
    · simp only [Except.ok.injEq] at h
      subst h
      rfl
    · simp at h

theorem perform_slot (E : Engine) (op : Operation) (iso s : JerryIsolate)
    (h : perform E op iso = .ok s) : s.m_slot = iso.m_slot := by
  cases op
  case tryReportError => exact TryReportError_slot E iso s h
  case setEternal value index =>
    simp only [perform] at h
    cases hset : SetEternal value index iso with
    | error e => simp [hset] at h
    | ok result =>
      simp only [hset, Except.ok.injEq] at h
      subst h
      exact SetEternal_slot value index iso result hset
  all_goals simp only [perform] at h
  all_goals
    try simp only [Enter, Exit, Terminate, CancelTerminate, PushTryCatch, PopTryCatch, SetError,
      ClearError, TakeError, PushContext, PopContext, GetGlobalSymbol,
      PushHandleScope, PopHandleScope, AddToHandleScope, EscapeHandle, SealHandleScope,
      AddTemplate, ReportFatalError, EnqueueMicrotask, RunMicrotasks,
      AddUTF16String, RemoveUTF16String, HiddenObjectTemplate, jerry_set_realm, newJerryValue,
      JerryValue.Copy, JerryHandleScope.AddHandle, JerryHandleScope.RemoveHandle] at h
  all_goals repeat' split at h
  all_goals first
    | (simp only [Except.ok.injEq] at h; subst h; rfl)
    | simp at h

theorem performAll_slot (E : Engine) (ops : List Operation) :
    ∀ iso s : JerryIsolate, performAll E ops iso = .ok s → s.m_slot = iso.m_slot := by
  induction ops with
  | nil =>
    intro iso s h
    simp only [performAll, Except.ok.injEq] at h
    subst h
    rfl
  | cons op ops ih =>
    intro iso s h
    simp only [performAll] at h
    cases hop : perform E op iso with
    | error e => simp [hop] at h
    | ok iso1 =>
      simp only [hop] at h
      rw [ih iso1 s h, perform_slot E op iso iso1 hop]

theorem InitalizeSlots_state (E : Engine) (K : Internals) (iso : JerryIsolate)
    (hK : K.WellFormed) :
    InitalizeSlots E K iso =
      .ok { iso with
        m_slot := (List.replicate K.slotCount (SlotCell.raw 0)
          |>.set (K.kExternalMemoryOffset / K.kApiSystemPointerSize) (SlotCell.raw 0)
          |>.set (K.kExternalMemoryLimitOffset / K.kApiSystemPointerSize)
            (SlotCell.raw (1024 * 1024))
          |>.set (K.root_offset + K.kUndefinedValueRootIndex)
            (SlotCell.value ⟨iso.heap_allocated + 1, E.create_undefined⟩)
          |>.set (K.root_offset + K.kTheHoleValueRootIndex)
            (SlotCell.value ⟨iso.heap_allocated + 2, E.create_undefined⟩)
          |>.set (K.root_offset + K.kNullValueRootIndex)
            (SlotCell.value ⟨iso.heap_allocated + 3, E.create_null⟩)
          |>.set (K.root_offset + K.kTrueValueRootIndex)
            (SlotCell.value ⟨iso.heap_allocated + 4, E.create_boolean true⟩)
          |>.set (K.root_offset + K.kFalseValueRootIndex)
            (SlotCell.value ⟨iso.heap_allocated + 5, E.create_boolean false⟩)
          |>.set (K.root_offset + K.kEmptyStringRootIndex)
            (SlotCell.value ⟨iso.heap_allocated + 6, E.create_string ""⟩))
        heap_allocated := iso.heap_allocated + 6 } := by
  obtain ⟨-, h1, h2, h3, h4, h5, h6, h7, h8⟩ := hK
  simp [InitalizeSlots, writeSlot, bind, Except.bind, h1, h2, h3, h4, h5, h6, h7, h8]

/-- C18: for layout constants that are usable (pairwise different root indices, all assigned
cells inside `m_slot`), `InitalizeSlots` returns normally, and afterwards the root cells for
undefined, null, true, false and the empty string hold the wrappers created for them, which
wrap the engine's undefined, null, true, false and empty-string values and have pairwise
different addresses, none of them `NULL`.  Every sequence of operations of the live isolate
(all its methods but construction and `Dispose`) that runs without a fault leaves the whole
slot table, hence each of these cells, as `InitalizeSlots` left it. -/
theorem InitalizeSlots_roots_stable (E : Engine) (K : Internals) (iso : JerryIsolate)
    (hK : K.WellFormed) :
    ∃ s : JerryIsolate,
      InitalizeSlots E K iso = .ok s
      ∧ s.m_slot[K.root_offset + K.kUndefinedValueRootIndex]? =
          some (SlotCell.value ⟨iso.heap_allocated + 1, E.create_undefined⟩)
      ∧ s.m_slot[K.root_offset + K.kNullValueRootIndex]? =
          some (SlotCell.value ⟨iso.heap_allocated + 3, E.create_null⟩)
      ∧ s.m_slot[K.root_offset + K.kTrueValueRootIndex]? =
          some (SlotCell.value ⟨iso.heap_allocated + 4, E.create_boolean true⟩)
      ∧ s.m_slot[K.root_offset + K.kFalseValueRootIndex]? =
          some (SlotCell.value ⟨iso.heap_allocated + 5, E.create_boolean false⟩)
      ∧ s.m_slot[K.root_offset + K.kEmptyStringRootIndex]? =
          some (SlotCell.value ⟨iso.heap_allocated + 6, E.create_string ""⟩)
      ∧ [iso.heap_allocated + 1, iso.heap_allocated + 3, iso.heap_allocated + 4,
          iso.heap_allocated + 5, iso.heap_allocated + 6].Nodup
      ∧ (∀ a ∈ [iso.heap_allocated + 1, iso.heap_allocated + 3, iso.heap_allocated + 4,
          iso.heap_allocated + 5, iso.heap_allocated + 6], a ≠ 0)
      ∧ ∀ (ops : List Operation) (t : JerryIsolate), performAll E ops s = .ok t →
          t.m_slot = s.m_slot := by
  have hK0 := hK
  obtain ⟨hnd, -, -, h3, h4, h5, h6, h7, h8⟩ := hK0
  simp only [List.nodup_cons, List.mem_cons, List.mem_singleton, List.not_mem_nil, not_or,
    List.nodup_nil, and_true, not_false_eq_true] at hnd
  obtain ⟨⟨n12, n13, n14, n15, n16⟩, ⟨n23, n24, n25, n26⟩, ⟨n34, n35, n36⟩, ⟨n45, n46⟩, n56⟩ :=
    hnd
  refine ⟨_, InitalizeSlots_state E K iso hK, ?_, ?_, ?_, ?_, ?_, ?_, ?_, ?_⟩
  · simp [List.getElem?_set, h3, n12, n13, n14, n15, n16, Ne.symm n12, Ne.symm n13, Ne.symm n14,
      Ne.symm n15, Ne.symm n16]
  · simp [List.getElem?_set, h5, n34, n35, n36, Ne.symm n34, Ne.symm n35, Ne.symm n36]
  · simp [List.getElem?_set, h6, n45, n46, Ne.symm n45, Ne.symm n46]
  · simp [List.getElem?_set, h7, n56, Ne.symm n56]
  · simp [List.getElem?_set, h8]
  · simp
  · intro a ha
    simp only [List.mem_cons, List.mem_singleton, List.not_mem_nil, or_false] at ha
    omega
  · intro ops t ht
    exact performAll_slot E ops _ t ht

/-- Witness for C18 on the sample engine and layout. -/
theorem InitalizeSlots_roots_stable_witness :
    Internals.sample.WellFormed
    ∧ ∃ s : JerryIsolate,
      InitalizeSlots Engine.sample Internals.sample JerryIsolate.initial = .ok s
      ∧ s.m_slot[Internals.sample.root_offset + Internals.sample.kUndefinedValueRootIndex]? =
          some (SlotCell.value ⟨2, Engine.sample.create_undefined⟩)
      ∧ s.m_slot[Internals.sample.root_offset + Internals.sample.kNullValueRootIndex]? =
          some (SlotCell.value ⟨4, Engine.sample.create_null⟩)
      ∧ ∀ (ops : List Operation) (t : JerryIsolate),
          performAll Engine.sample ops s = .ok t → t.m_slot = s.m_slot := by
  have hK : Internals.sample.WellFormed := by
    simp [Internals.WellFormed, Internals.sample, Internals.root_offset]
  obtain ⟨s, h1, h2, h3, -, -, -, -, -, h9⟩ :=
    InitalizeSlots_roots_stable Engine.sample Internals.sample JerryIsolate.initial hK
  exact ⟨hK, s, h1, h2, h3, h9⟩

/-! ### Fatal errors of the port -/

/-- C19: for the code `ERR_OUT_OF_MEMORY`, when it is not zero, `jerry_port_fatal` calls
`exit` with that code, while the comment above the function documents `abort` for every
non-zero code; for every other code the function does what its comment documents (`abort`
for a non-zero code, `exit` with the code for zero). -/
theorem jerry_port_fatal_out_of_memory_exits (ERR_OUT_OF_MEMORY : Nat)
    (h : ERR_OUT_OF_MEMORY ≠ 0) :
    jerry_port_fatal ERR_OUT_OF_MEMORY ERR_OUT_OF_MEMORY = ProcessEnd.exit ERR_OUT_OF_MEMORY
    ∧ jerry_port_fatal_documented ERR_OUT_OF_MEMORY = ProcessEnd.abort
    ∧ ∀ code : Nat, jerry_port_fatal ERR_OUT_OF_MEMORY code =
        if code = ERR_OUT_OF_MEMORY then ProcessEnd.exit code
        else jerry_port_fatal_documented code := by
  refine ⟨by simp [jerry_port_fatal], by simp [jerry_port_fatal_documented, h], ?_⟩
  intro code
  by_cases hc : code = ERR_OUT_OF_MEMORY
  · simp [jerry_port_fatal, hc]
  · simp [jerry_port_fatal, jerry_port_fatal_documented, hc]

/-- Witness for C19 with the value 10 for `ERR_OUT_OF_MEMORY`. -/
theorem jerry_port_fatal_out_of_memory_exits_witness :
    (10 : Nat) ≠ 0
    ∧ jerry_port_fatal 10 10 = ProcessEnd.exit 10
    ∧ jerry_port_fatal_documented 10 = ProcessEnd.abort :=
  ⟨by decide, (jerry_port_fatal_out_of_memory_exits 10 (by decide)).1,
    (jerry_port_fatal_out_of_memory_exits 10 (by decide)).2.1⟩

/-! ### Nested try-catch frames -/

theorem TryReportError_not_suppressed (E : Engine) (iso : JerryIsolate)
    (hcatch : iso.m_last_try_catch = none) : TryReportError E iso ≠ .ok iso := by
  intro h
  cases herr : iso.m_current_error with
  | none => simp [TryReportError, hcatch, GetRawError, herr] at h
  | some err =>
    cases hfmt : FormatError E iso.m_magic_string_stack err.value with
    | error e =>
      simp [TryReportError, hcatch, GetRawError, herr, ClearError, UpdateErrorStackProp,
        hfmt] at h
    | ok result =>
      cases hm : iso.m_messageCallback <;>
        simp [TryReportError, hcatch, GetRawError, herr, ClearError, UpdateErrorStackProp,
          hfmt, ReportMessage, hm] at h <;>
        (have hlen := congrArg (fun x : JerryIsolate => x.m_current_error) h
         simp [herr] at hlen)

theorem runTryCatch_invariant (calls : List TryCatchCall) :
    ∀ (kept : List (Option Nat)) (iso : JerryIsolate) (kept1 : List (Option Nat))
      (s : JerryIsolate) (frames : List Nat),
      runTryCatch calls kept iso = some (kept1, s) →
      iso.m_last_try_catch :: kept = frames.map some ++ [none] →
      (∃ frames1 : List Nat, s.m_last_try_catch :: kept1 = frames1.map some ++ [none])
      ∧ kept1.length + leaveCount calls = kept.length + enterCount calls := by
  induction calls with
  | nil =>
    intro kept iso kept1 s frames hrun hinv
    simp only [runTryCatch, Option.some.injEq, Prod.mk.injEq] at hrun
    obtain ⟨rfl, rfl⟩ := hrun
    exact ⟨⟨frames, hinv⟩, by simp [leaveCount, enterCount]⟩
  | cons call rest ih =>
    intro kept iso kept1 s frames hrun hinv
    cases call with
    | enter frame =>
      simp only [runTryCatch] at hrun
      have hnext : (PushTryCatch (some frame) iso).2.m_last_try_catch ::
          ((PushTryCatch (some frame) iso).1 :: kept) = (frame :: frames).map some ++ [none] := by
        simp [PushTryCatch, hinv]
      obtain ⟨hex, hlen⟩ := ih _ _ kept1 s (frame :: frames) hrun hnext
      refine ⟨hex, ?_⟩
      simp only [List.length_cons] at hlen
      simp only [leaveCount, enterCount]
      omega
    | leave =>
      cases kept with
      | nil => simp [runTryCatch] at hrun
      | cons previous kept0 =>
        simp only [runTryCatch] at hrun
        cases frames with
        | nil => simp at hinv
        | cons f fs =>
          simp only [List.map_cons, List.cons_append, List.cons.injEq] at hinv
          have hnext : (PopTryCatch previous iso).m_last_try_catch :: kept0 =
              fs.map some ++ [none] := by
            simp [PopTryCatch, hinv.2]
          obtain ⟨hex, hlen⟩ := ih _ _ kept1 s fs hrun hnext
          refine ⟨hex, ?_⟩
          simp only [List.length_cons]
          simp only [leaveCount, enterCount]
          omega

/-- C20: `PushTryCatch (t)` returns the reference that was active and makes `t` the active one,
and `PopTryCatch` of the returned reference gives back the isolate as it was before the push.
Starting with no active try-catch, after any sequence of openings of non-null frames and
closings of the innermost open frame (each closing passing the reference its opening
returned) the closings never outnumber the openings, a try-catch is active exactly when at
least one frame is open, and `TryReportError` is suppressed (returns at once, leaving the
isolate as it is) exactly then. -/
theorem TryCatch_active_while_frame_open (E : Engine) (t : Option Nat)
    (iso0 iso : JerryIsolate) (calls : List TryCatchCall) (kept : List (Option Nat))
    (s : JerryIsolate)
    (h0 : iso.m_last_try_catch = none)
    (hrun : runTryCatch calls [] iso = some (kept, s)) :
    (PushTryCatch t iso0).1 = iso0.m_last_try_catch
    ∧ (PushTryCatch t iso0).2.m_last_try_catch = t
    ∧ PopTryCatch (PushTryCatch t iso0).1 (PushTryCatch t iso0).2 = iso0
    ∧ leaveCount calls ≤ enterCount calls
    ∧ kept.length = enterCount calls - leaveCount calls
    ∧ (s.m_last_try_catch ≠ none ↔ leaveCount calls < enterCount calls)
    ∧ (TryReportError E s = .ok s ↔ leaveCount calls < enterCount calls) := by
  have hinv0 : iso.m_last_try_catch :: ([] : List (Option Nat)) =
      ([] : List Nat).map some ++ [none] := by simp [h0]
  obtain ⟨⟨frames1, hfr⟩, hlen⟩ := runTryCatch_invariant calls [] iso kept s [] hrun hinv0
  simp only [List.length_nil, Nat.zero_add] at hlen
  have hactive : s.m_last_try_catch ≠ none ↔ leaveCount calls < enterCount calls := by
    cases frames1 with
    | nil =>
      simp only [List.map_nil, List.nil_append, List.cons.injEq] at hfr
      obtain ⟨hlast, hkept⟩ := hfr
      subst hkept
      simp only [List.length_nil, Nat.zero_add] at hlen
      simp [hlast, hlen]
    | cons f fs =>
      simp only [List.map_cons, List.cons_append, List.cons.injEq] at hfr
      obtain ⟨hlast, hkept⟩ := hfr
      have hpos : 0 < kept.length := by
        rw [hkept]
        simp
      constructor
      · intro _
        omega
      · intro _
        simp [hlast]
  refine ⟨rfl, rfl, rfl, by omega, by omega, hactive, ?_⟩
  rw [← hactive]
  constructor
  · intro hrep hnone
    exact TryReportError_not_suppressed E s hnone hrep
  · intro hne
    simp [TryReportError, hne]

/-- Witness for C20: two frames opened and the inner one closed again. -/
theorem TryCatch_active_while_frame_open_witness :
    JerryIsolate.initial.m_last_try_catch = none
    ∧ runTryCatch [TryCatchCall.enter 1, TryCatchCall.enter 2, TryCatchCall.leave] []
        JerryIsolate.initial =
          some ([none], { JerryIsolate.initial with m_last_try_catch := some 1 })
    ∧ TryReportError Engine.sample { JerryIsolate.initial with m_last_try_catch := some 1 } =
        .ok { JerryIsolate.initial with m_last_try_catch := some 1 } :=
  ⟨rfl, rfl,
    (TryCatch_active_while_frame_open Engine.sample (some 5) JerryIsolate.initial
      JerryIsolate.initial [TryCatchCall.enter 1, TryCatchCall.enter 2, TryCatchCall.leave]
      [none] { JerryIsolate.initial with m_last_try_catch := some 1 } rfl rfl).2.2.2.2.2.2.mpr
      (by decide)⟩

end V8Jerry
